import Mathlib

/-!
Verification development for the wall-crawler repository: a shallow embedding
of the cache-aside wallpaper/category synchronization flow (GitHub adapter,
rate-limited fetch, SQLite-backed persistent cache, orchestrating service)
together with theorems settling the specification claims.

Sources embedded:
- `src/lib/database/connection.ts` (schema: uniqueness of `Category.slug` and
  `Wallpaper.github_id`, autoincrement ids)
- `src/lib/database/categories.ts`, `wallpapers.ts`, `metadata.ts`
- `src/lib/wallpaper-service/wallpaper-service.ts` (orchestrator)
- the GitHub adapter module (`github-api`): `fetchWithRateLimit`,
  `extractResolutionFromName`, `extractFileInfo`, `getCategories`,
  `getWallpapersByCategory`
- `server/routes/wallpapers.ts` (route-level `orderBy` allow-list)

JavaScript value coercions that the code relies on (`x || y` falsiness of `0`
and `""`, `undefined`) are modelled explicitly by the `js*` helpers below.
-/

namespace WallCrawler

/-- JS `x || d` for an optional string: `undefined` and `""` are falsy. -/
def jsStringOr (x : Option String) (d : String) : String :=
  match x with
  | some s => if s = "" then d else s
  | none => d

/-- JS `x || null` for an optional string: `undefined` and `""` become null. -/
def jsStringOrNull (x : Option String) : Option String :=
  match x with
  | some s => if s = "" then none else some s
  | none => none

/-- JS truthiness for an optional number: `undefined` and `0` are falsy. -/
def jsTruthyNat (x : Option Nat) : Option Nat :=
  match x with
  | some n => if n = 0 then none else some n
  | none => none

/-- Aspect-ratio classification values (`'portrait' | 'landscape' | 'square'`). -/
inductive AspectRatio
  | portrait
  | landscape
  | square
deriving DecidableEq, Repr

/-- Parsed `{width, height}` resolution. -/
structure Resolution where
  width : Nat
  height : Nat
deriving DecidableEq, Repr

/-- Domain object produced by the GitHub adapter (`WallpaperItem` in
`types/wallpaper.ts`). -/
structure WallpaperItem where
  id : String
  name : String
  path : String
  sha : String
  size : Nat
  download_url : String
  html_url : String
  category : String
  resolution : Option Resolution
  aspectRatio : Option AspectRatio
  dominantColor : Option String
deriving DecidableEq, Repr

/-- Adapter-level category (`WallpaperCategory` in `types/wallpaper.ts`). -/
structure WallpaperCategory where
  name : String
  slug : String
  path : String
  count : Nat
  description : Option String
deriving DecidableEq, Repr

/-- A row of the `categories` table (`DatabaseCategory`). -/
structure DatabaseCategory where
  id : Nat
  slug : String
  name : String
  path : String
  description : Option String
  wallpaper_count : Nat
  created_at : String
  updated_at : String
deriving DecidableEq, Repr

/-- A row of the `wallpapers` table (`DatabaseWallpaper`), with
`is_featured` already normalized to a boolean as the query layer does. -/
structure DatabaseWallpaper where
  id : Nat
  github_id : String
  name : String
  path : String
  category_id : Nat
  category_name : String
  download_url : String
  html_url : String
  size : Nat
  width : Option Nat
  height : Option Nat
  aspect_ratio : Option AspectRatio
  dominant_color : Option String
  is_featured : Bool
  download_count : Nat
  view_count : Nat
  created_at : String
  updated_at : String
deriving DecidableEq, Repr

/-- `sync_status` values allowed by the `sync_meta` CHECK constraint. -/
inductive SyncStatus
  | pending
  | syncing
  | completed
  | failed
deriving DecidableEq, Repr

/-- A row of the `sync_meta` table (one row per category name, UNIQUE). -/
structure SyncMetaRow where
  category_name : String
  sync_status : SyncStatus
  last_synced : String
  wallpaper_count : Nat
  error_message : Option String
deriving DecidableEq, Repr

/-- The persistent cache: the SQLite database file. Autoincrement rowids are
modelled by the `next*Id` counters; rows are kept in insertion order. -/
structure DbState where
  categories : List DatabaseCategory
  wallpapers : List DatabaseWallpaper
  sync_meta : List SyncMetaRow
  nextCategoryId : Nat
  nextWallpaperId : Nat
deriving DecidableEq, Repr

/-- Input to `createCategory` (`Omit<DatabaseCategory, 'id'|'created_at'|'updated_at'>`). -/
structure NewCategory where
  slug : String
  name : String
  path : String
  description : Option String
  wallpaper_count : Nat
deriving DecidableEq, Repr

/-- Input to `createWallpaper` (`Omit<DatabaseWallpaper, 'id'|'created_at'|'updated_at'>`). -/
structure NewWallpaper where
  github_id : String
  name : String
  path : String
  category_id : Nat
  category_name : String
  download_url : String
  html_url : String
  size : Nat
  width : Option Nat
  height : Option Nat
  aspect_ratio : Option AspectRatio
  dominant_color : Option String
  is_featured : Bool
  download_count : Nat
  view_count : Nat
deriving DecidableEq, Repr

/-- Optional query filters accepted by `getWallpapers`
(`DatabaseWallpaperFilters` in `types/database.ts`; `orderBy` is kept as a
raw string because the query builder interpolates it as one). -/
structure DatabaseWallpaperFilters where
  categoryId : Option Nat := none
  categoryName : Option String := none
  isFeatured : Option Bool := none
  search : Option String := none
  limit : Option Nat := none
  offset : Option Nat := none
  orderBy : Option String := none
  orderDirection : Option String := none
deriving DecidableEq, Repr

/-- Case-insensitive substring test over character lists, modelling
`field LIKE '%term%'` (SQLite LIKE is ASCII case-insensitive; SQL wildcards
inside the term are not modelled — no claim depends on `search`). -/
def containsSub (hay needle : List Char) : Bool :=
  match hay with
  | [] => needle.isEmpty
  | _ :: rest => needle.isPrefixOf hay || containsSub rest needle

/-- Lexicographic comparison of character lists by code point, matching
SQLite's memcmp ordering of UTF-8 TEXT values. -/
def lexLe : List Char → List Char → Bool
  | [], _ => true
  | _ :: _, [] => false
  | a :: as, b :: bs =>
    if a.val < b.val then true
    else if b.val < a.val then false
    else lexLe as bs

/-- Insert into a sorted list, keeping `le`-sortedness (stable). -/
def insertSorted (le : DatabaseWallpaper → DatabaseWallpaper → Bool)
    (x : DatabaseWallpaper) : List DatabaseWallpaper → List DatabaseWallpaper
  | [] => [x]
  | y :: ys => if le x y then x :: y :: ys else y :: insertSorted le x ys

/-- Insertion sort used to model `ORDER BY`. -/
def sortWith (le : DatabaseWallpaper → DatabaseWallpaper → Bool) :
    List DatabaseWallpaper → List DatabaseWallpaper
  | [] => []
  | x :: xs => insertSorted le x (sortWith le xs)

namespace Db

/-- `getCategoryBySlug` (`categories.ts`): first row with the given slug
(the schema makes `slug` UNIQUE). -/
def getCategoryBySlug (db : DbState) (slug : String) : Option DatabaseCategory :=
  db.categories.find? (fun c => c.slug == slug)

/-- `getCategoryById` (`categories.ts`). -/
def getCategoryById (db : DbState) (id : Nat) : Option DatabaseCategory :=
  db.categories.find? (fun c => c.id == id)

/-- `createCategory` (`categories.ts`): idempotent pre-check on slug, then
INSERT with a fresh autoincrement id; the post-insert lookup failure path
(`throw new Error('Failed to create category')`) is the `.error` case. -/
def createCategory (db : DbState) (c : NewCategory) (now : String) :
    Except String DatabaseCategory × DbState :=
  match getCategoryBySlug db c.slug with
  | some existing => (.ok existing, db)
  | none =>
    let row : DatabaseCategory :=
      { id := db.nextCategoryId, slug := c.slug, name := c.name, path := c.path,
        description := jsStringOrNull c.description,
        wallpaper_count := c.wallpaper_count,
        created_at := now, updated_at := now }
    let db' : DbState :=
      { db with categories := db.categories ++ [row],
                nextCategoryId := db.nextCategoryId + 1 }
    match getCategoryById db' db.nextCategoryId with
    | some created => (.ok created, db')
    | none => (.error "Failed to create category", db')

/-- `getWallpaperById` (`wallpapers.ts`). -/
def getWallpaperById (db : DbState) (id : Nat) : Option DatabaseWallpaper :=
  db.wallpapers.find? (fun w => w.id == id)

/-- `getWallpaperByGithubId` (`wallpapers.ts`). -/
def getWallpaperByGithubId (db : DbState) (githubId : String) : Option DatabaseWallpaper :=
  db.wallpapers.find? (fun w => w.github_id == githubId)

/-- The row stored by an INSERT into `wallpapers`, with the JS `|| null`
coercions applied to the optional columns (`wallpapers.ts` lines 144-162). -/
def mkStoredWallpaper (id : Nat) (w : NewWallpaper) (now : String) : DatabaseWallpaper :=
  { id := id, github_id := w.github_id, name := w.name, path := w.path,
    category_id := w.category_id, category_name := w.category_name,
    download_url := w.download_url, html_url := w.html_url, size := w.size,
    width := jsTruthyNat w.width, height := jsTruthyNat w.height,
    aspect_ratio := w.aspect_ratio, dominant_color := jsStringOrNull w.dominant_color,
    is_featured := w.is_featured, download_count := w.download_count,
    view_count := w.view_count, created_at := now, updated_at := now }

/-- `createWallpaper` (`wallpapers.ts`): pre-check on `github_id` returns the
existing row; otherwise INSERT and re-read by rowid. The second component is
the database after the call (an exception does not undo a completed insert). -/
def createWallpaper (db : DbState) (w : NewWallpaper) (now : String) :
    Except String DatabaseWallpaper × DbState :=
  match getWallpaperByGithubId db w.github_id with
  | some existing => (.ok existing, db)
  | none =>
    let row := mkStoredWallpaper db.nextWallpaperId w now
    let db' : DbState :=
      { db with wallpapers := db.wallpapers ++ [row],
                nextWallpaperId := db.nextWallpaperId + 1 }
    match getWallpaperById db' db.nextWallpaperId with
    | some created => (.ok created, db')
    | none => (.error "Failed to create wallpaper", db')

/-- The WHERE clause of `getWallpapers` (`wallpapers.ts` lines 20-40), with
the JS truthiness guards on each filter. -/
def matchesFilters (filters : DatabaseWallpaperFilters) (w : DatabaseWallpaper) : Bool :=
  (match jsTruthyNat filters.categoryId with
   | some i => w.category_id == i
   | none => true)
  && (match jsStringOrNull filters.categoryName with
      | some n => w.category_name == n
      | none => true)
  && (match filters.isFeatured with
      | some b => w.is_featured == b
      | none => true)
  && (match jsStringOrNull filters.search with
      | some s => containsSub w.name.toLower.data s.toLower.data
                  || containsSub w.category_name.toLower.data s.toLower.data
      | none => true)

/-- The ORDER BY clause interpolated by `getWallpapers` (`wallpapers.ts`
lines 43-45): `filters.orderBy || 'created_at'` and
`filters.orderDirection || 'DESC'` — no allow-list validation here. -/
def orderClause (filters : DatabaseWallpaperFilters) : String × String :=
  (jsStringOr filters.orderBy "created_at", jsStringOr filters.orderDirection "DESC")

/-- Key comparison for the order-by columns that the declared filter type and
the HTTP route admit. -/
def columnLe (col : String) (a b : DatabaseWallpaper) : Bool :=
  if col == "name" then lexLe a.name.data b.name.data
  else if col == "size" then a.size ≤ b.size
  else if col == "download_count" then a.download_count ≤ b.download_count
  else if col == "view_count" then a.view_count ≤ b.view_count
  else lexLe a.created_at.data b.created_at.data

/-- Columns for which the ORDER BY semantics are modelled: the allow-list of
the declared `orderBy` type and of the HTTP route. SQLite would additionally
accept any other physical column name and raise on the rest; the model
raises on everything outside this list (no claim evaluates `getWallpapers`
end-to-end at such a value — the C5 analysis is at the clause level). -/
def knownOrderColumns : List String :=
  ["name", "size", "download_count", "view_count", "created_at"]

/-- Sorting semantics of `ORDER BY col dir`; an unmodelled column or
direction is a query error (SQLite raises). -/
def sortByColumn (col dir : String) (rows : List DatabaseWallpaper) :
    Except String (List DatabaseWallpaper) :=
  if !(knownOrderColumns.contains col) then .error ("no such column: " ++ col)
  else if dir == "DESC" then .ok (sortWith (fun a b => columnLe col b a) rows)
  else if dir == "ASC" then .ok (sortWith (columnLe col) rows)
  else .error ("unrecognized direction: " ++ dir)

/-- The LIMIT/OFFSET clause of `getWallpapers` (`wallpapers.ts` lines 48-56):
OFFSET is only emitted when LIMIT is truthy. -/
def applyLimit (filters : DatabaseWallpaperFilters) (rows : List DatabaseWallpaper) :
    List DatabaseWallpaper :=
  match jsTruthyNat filters.limit with
  | none => rows
  | some n =>
    match jsTruthyNat filters.offset with
    | none => rows.take n
    | some m => (rows.drop m).take n

/-- `getWallpapers` (`wallpapers.ts`): WHERE, then ORDER BY, then
LIMIT/OFFSET. A bad interpolated ORDER BY raises, modelled as `.error`. -/
def getWallpapers (db : DbState) (filters : DatabaseWallpaperFilters) :
    Except String (List DatabaseWallpaper) :=
  let afterWhere := db.wallpapers.filter (matchesFilters filters)
  match sortByColumn (orderClause filters).1 (orderClause filters).2 afterWhere with
  | .error e => .error e
  | .ok sorted => .ok (applyLimit filters sorted)

/-- The rows `getWallpapers {categoryId}` returns: category filter, ordered
by `created_at DESC` (the defaults), no limit. -/
def rowsByCategory (db : DbState) (categoryId : Nat) : List DatabaseWallpaper :=
  sortWith (fun a b => columnLe "created_at" b a)
    (db.wallpapers.filter (matchesFilters { categoryId := some categoryId }))

/-- `updateSyncMeta` (`metadata.ts`): INSERT OR REPLACE keyed on the UNIQUE
`category_name`, with the JS `count || 0` and `error || null` coercions;
returns whether a row changed (always true) and the new state. -/
def updateSyncMeta (db : DbState) (categoryName : String) (status : SyncStatus)
    (count : Option Nat) (error : Option String) (now : String) : Bool × DbState :=
  let row : SyncMetaRow :=
    { category_name := categoryName, sync_status := status, last_synced := now,
      wallpaper_count := count.getD 0, error_message := jsStringOrNull error }
  (true,
   { db with sync_meta :=
       db.sync_meta.filter (fun r => r.category_name != categoryName) ++ [row] })

/-- `getSyncMeta` (`metadata.ts`). -/
def getSyncMeta (db : DbState) (categoryName : String) : Option SyncMetaRow :=
  db.sync_meta.find? (fun r => r.category_name == categoryName)

/-- One `INSERT OR IGNORE` into `wallpapers`: the UNIQUE(github_id) conflict
is ignored, anything else inserts with a fresh rowid
(`createMultipleWallpapers`, `wallpapers.ts` lines 255-292). -/
def insertOrIgnoreWallpaper (now : String) (db : DbState) (w : NewWallpaper) : DbState :=
  if db.wallpapers.any (fun r => r.github_id == w.github_id) then db
  else
    { db with wallpapers := db.wallpapers ++ [mkStoredWallpaper db.nextWallpaperId w now],
              nextWallpaperId := db.nextWallpaperId + 1 }

/-- Run a list of statements sequentially, stopping at the first error
(the body of a better-sqlite3 transaction). -/
def runSteps (db : DbState) : List (DbState → Except String DbState) → Except String DbState
  | [] => .ok db
  | s :: rest =>
    match s db with
    | .ok db' => runSteps db' rest
    | .error e => .error e

/-- better-sqlite3 `database.transaction` plus the surrounding
`try { … return true } catch { … return false }`: on any error the
transaction is rolled back, leaving the database unchanged. -/
def runTransaction (db : DbState)
    (steps : List (DbState → Except String DbState)) : DbState × Bool :=
  match runSteps db steps with
  | .ok db' => (db', true)
  | .error _ => (db, false)

/-- `createMultipleWallpapers` (`wallpapers.ts`): every INSERT OR IGNORE of
the batch inside a single transaction, one shared `now` timestamp. -/
def createMultipleWallpapers (db : DbState) (ws : List NewWallpaper) (now : String) :
    DbState × Bool :=
  runTransaction db (ws.map (fun w => fun d => .ok (insertOrIgnoreWallpaper now d w)))

end Db

namespace GitHubApi

/-- The typed adapter error (`GitHubApiError` class): message, HTTP status,
failing URL. -/
structure GitHubApiError where
  message : String
  status : Nat
  url : String
deriving DecidableEq, Repr

/-- Outcome of one underlying `fetch(url)` call: an HTTP response with a
status and statusText, or a network failure (the fetch itself throwing). -/
inductive FetchOutcome
  | response (status : Nat) (statusText : String)
  | netFail
deriving DecidableEq, Repr

/-- `RATE_LIMIT_CONFIG.retryAttempts`. -/
def retryAttempts : Nat := 3

/-- `RATE_LIMIT_CONFIG.retryDelay` (milliseconds). -/
def retryDelay : Nat := 5000

/-- `response.ok`: status in the 200-299 range. -/
def statusOk (s : Nat) : Bool := 200 ≤ s && s < 300

/-- Message of the rate-limit-exhaustion error. -/
def rateLimitMsg : String := "Rate limit exceeded after retries"

/-- Message of the non-2xx error. -/
def fetchFailMsg (url statusText : String) : String :=
  "Failed to fetch " ++ url ++ ": " ++ statusText

/-- Message of the network-failure error. -/
def networkErrMsg (url : String) : String := "Network error fetching " ++ url

/-- Observable behaviour of one `fetchWithRateLimit` call: the result
(`.ok i` returns the response of attempt `i`), the number of underlying
fetch invocations, and the delays slept before each retry. -/
structure FetchRun where
  result : Except GitHubApiError Nat
  attempts : Nat
  delays : List Nat
deriving Repr

/-- Recursion of `fetchWithRateLimit`, structurally on the retries still
allowed; `retriesLeft = retryAttempts - retryCount`, so the guard
`retryCount < retryAttempts` of the source is exactly `retriesLeft > 0`. -/
def fetchGo (oracle : Nat → FetchOutcome) (url : String) :
    (retryCount retriesLeft : Nat) → FetchRun
  | retryCount, retriesLeft =>
    match oracle retryCount with
    | .netFail => ⟨.error ⟨networkErrMsg url, 0, url⟩, 1, []⟩
    | .response s txt =>
      if s = 429 then
        match retriesLeft with
        | left + 1 =>
          let rest := fetchGo oracle url (retryCount + 1) left
          ⟨rest.result, rest.attempts + 1, retryDelay :: rest.delays⟩
        | 0 => ⟨.error ⟨rateLimitMsg, 429, url⟩, 1, []⟩
      else if statusOk s then ⟨.ok retryCount, 1, []⟩
      else ⟨.error ⟨fetchFailMsg url txt, s, url⟩, 1, []⟩

/-- `fetchWithRateLimit(url, retryCount)`: on HTTP 429 with retries left,
sleep `retryDelay` and retry; after exhausting the attempts surface the
rate-limit error; any other non-2xx status or a network failure errors
immediately. `oracle i` is the outcome of the `i`-th fetch of `url`. -/
def fetchWithRateLimit (oracle : Nat → FetchOutcome) (url : String)
    (retryCount : Nat) : FetchRun :=
  fetchGo oracle url retryCount (retryAttempts - retryCount)

/-- `GITHUB_CONFIG` and `buildApiUrl`. -/
def buildApiUrl (path : String) : String :=
  "https://api.github.com/repos/dharmx/walls/contents" ++ path

/-- `buildRawUrl`. -/
def buildRawUrl (path : String) : String :=
  "https://raw.githubusercontent.com/dharmx/walls/main" ++ path

/-- `IMAGE_EXTENSIONS`. -/
def IMAGE_EXTENSIONS : List String := [".jpg", ".jpeg", ".png", ".webp", ".gif"]

/-- `isImageFile`. -/
def isImageFile (filename : String) : Bool :=
  IMAGE_EXTENSIONS.any (fun ext => filename.toLower.endsWith ext)

/-- One item of a GitHub contents-API directory listing
(`GitHubContentItem` in `types/github.ts`). -/
structure GitHubContentItem where
  name : String
  path : String
  sha : String
  size : Nat
  type : String
  download_url : Option String
  html_url : String
deriving DecidableEq, Repr

/-- Take exactly `n` ASCII digits off the front, returning their decimal
value (as `parseInt` does, leading zeros included) and the rest. -/
def takeDigits (acc : Nat) : Nat → List Char → Option (Nat × List Char)
  | 0, cs => some (acc, cs)
  | _ + 1, [] => none
  | n + 1, c :: cs =>
    if c.isDigit then takeDigits (acc * 10 + (c.toNat - '0'.toNat)) n cs else none

/-- The separator class `[x×]` of the resolution regex. -/
def isResSep (c : Char) : Bool := c == 'x' || c == '×'

/-- Match `(\d{3,4})[x×]` at the head: exactly `n` digits then a separator. -/
def matchWidthSep (n : Nat) (cs : List Char) : Option (Nat × List Char) :=
  match takeDigits 0 n cs with
  | some (w, c :: rest) => if isResSep c then some (w, rest) else none
  | _ => none

/-- Match the trailing `(\d{3,4})` greedily: four digits, else three. -/
def matchHeight (cs : List Char) : Option Nat :=
  match takeDigits 0 4 cs with
  | some (h, _) => some h
  | none =>
    match takeDigits 0 3 cs with
    | some (h, _) => some h
    | none => none

/-- The three-digit-width alternative of the backtracking search. -/
def matchAt3 (cs : List Char) : Option (Nat × Nat) :=
  match matchWidthSep 3 cs with
  | some (w, rest) => (matchHeight rest).map (fun h => (w, h))
  | none => none

/-- Match `(\d{3,4})[x×](\d{3,4})` anchored at the head, with the greedy
backtracking order of the JS regex engine: a four-digit width first, falling
back to three digits. -/
def matchResAt (cs : List Char) : Option (Nat × Nat) :=
  match matchWidthSep 4 cs with
  | some (w, rest) =>
    match matchHeight rest with
    | some h => some (w, h)
    | none => matchAt3 cs
  | none => matchAt3 cs

/-- Leftmost match of the resolution pattern anywhere in the string
(`filename.match(/(\d{3,4})[x×](\d{3,4})/)`). -/
def scanResolution : List Char → Option (Nat × Nat)
  | [] => none
  | c :: rest =>
    match matchResAt (c :: rest) with
    | some r => some r
    | none => scanResolution rest

/-- `extractResolutionFromName`. -/
def extractResolutionFromName (filename : String) : Option Resolution :=
  (scanResolution filename.data).map (fun p => ⟨p.1, p.2⟩)

/-- `getAspectRatio`: `width/height > 1.1 → landscape`,
`< 0.9 → portrait`, else `square`. The IEEE-double comparisons of the
source are replaced by the exact integer comparisons `10*w > 11*h` and
`10*w < 9*h`; for the 0-9999 operand range the regex can produce, the two
agree (the closest ratio to the thresholds other than the thresholds
themselves differs by more than 1e-5, far above double rounding error, and
the division-by-zero edge cases coincide as well). -/
def getAspectRatio (width height : Nat) : AspectRatio :=
  if 11 * height < 10 * width then .landscape
  else if 10 * width < 9 * height then .portrait
  else .square

/-- `extractFileInfo`: build a `WallpaperItem` from a directory entry,
with resolution and aspect ratio from the filename when the pattern
matches. -/
def extractFileInfo (item : GitHubContentItem) (category : String) : WallpaperItem :=
  let resolution := extractResolutionFromName item.name
  { id := item.sha, name := item.name, path := item.path, sha := item.sha,
    size := item.size,
    download_url := jsStringOr item.download_url (buildRawUrl item.path),
    html_url := item.html_url, category := category,
    resolution := resolution,
    aspectRatio := resolution.map (fun r => getAspectRatio r.width r.height),
    dominantColor := none }

/-- Collapse runs of non-`[a-z0-9]` characters to single dashes: the state
records whether the previous character was part of such a run
(`.replace(/[^a-z0-9]+/g, '-')` on the lowercased name). -/
def slugifyGo : List Char → Bool → List Char
  | [], _ => []
  | c :: rest, inRun =>
    if ('a' ≤ c && c ≤ 'z') || ('0' ≤ c && c ≤ '9') then c :: slugifyGo rest false
    else if inRun then slugifyGo rest true
    else '-' :: slugifyGo rest true

/-- Slug derivation: `name.toLowerCase().replace(/[^a-z0-9]+/g, '-')`
(ASCII lowercasing; the claims do not depend on non-ASCII case folding). -/
def slugify (s : String) : String := ⟨slugifyGo s.toLower.data false⟩

/-- `fetchDirectoryContents` through the request queue: rate-limited fetch of
the contents URL, then `response.json()`. `fo url i` is the outcome of the
`i`-th fetch of `url`; `jo url` is the parsed body of a successful response
(JSON parsing itself is abstracted as always succeeding on a 2xx response). -/
def fetchDirectoryContents (fo : String → Nat → FetchOutcome)
    (jo : String → List GitHubContentItem) (path : String) :
    Except GitHubApiError (List GitHubContentItem) :=
  let url := buildApiUrl path
  match (fetchWithRateLimit (fo url) url 0).result with
  | .ok _ => .ok (jo url)
  | .error e => .error e

/-- The denylist of known non-wallpaper entries. -/
def DENYLIST : List String := ["logs.txt", "responses.txt", "snake_case_log.txt"]

/-- The directory filter of `getCategories`: directories only, no dotfiles,
not on the denylist. -/
def categoryDirs (contents : List GitHubContentItem) : List GitHubContentItem :=
  ((contents.filter (fun i => i.type == "dir")).filter
      (fun i => !(i.name.startsWith "."))).filter
    (fun i => !(DENYLIST.contains i.name))

/-- The per-directory body of `getCategories`: count the image files in the
category, degrading to a zero count if that listing fails (the try/catch
around the inner fetch). -/
def categoryOf (fo : String → Nat → FetchOutcome)
    (jo : String → List GitHubContentItem) (item : GitHubContentItem) :
    WallpaperCategory :=
  match fetchDirectoryContents fo jo ("/" ++ item.path) with
  | .ok catContents =>
    { name := item.name, slug := slugify item.name, path := item.path,
      count := (catContents.filter
        (fun f => f.type == "file" && isImageFile f.name)).length,
      description := some (item.name ++ " wallpapers") }
  | .error _ =>
    { name := item.name, slug := slugify item.name, path := item.path,
      count := 0, description := some (item.name ++ " wallpapers") }

/-- Adapter `getCategories`: list the repository root, keep the wallpaper
directories, and build a category per directory. -/
def getCategories (fo : String → Nat → FetchOutcome)
    (jo : String → List GitHubContentItem) :
    Except GitHubApiError (List WallpaperCategory) :=
  match fetchDirectoryContents fo jo "" with
  | .error e => .error e
  | .ok contents => .ok ((categoryDirs contents).map (categoryOf fo jo))

/-- Adapter `getWallpapersByCategory`: resolve the slug to the exact remote
path via `getCategories`, raise a typed 404 for an unknown slug, list the
directory, and keep the image files. -/
def getWallpapersByCategory (fo : String → Nat → FetchOutcome)
    (jo : String → List GitHubContentItem) (categorySlug : String) :
    Except GitHubApiError (List WallpaperItem) :=
  match getCategories fo jo with
  | .error e => .error e
  | .ok categories =>
    match categories.find? (fun c => c.slug == categorySlug) with
    | none =>
      .error ⟨"Category \"" ++ categorySlug ++ "\" not found", 404, ""⟩
    | some category =>
      match fetchDirectoryContents fo jo ("/" ++ category.path) with
      | .error e => .error e
      | .ok contents =>
        .ok ((contents.filter (fun i => i.type == "file" && isImageFile i.name)).map
          (fun i => extractFileInfo i category.name))

end GitHubApi

namespace Service

/-- `convertDatabaseWallpaper` (`wallpaper-service.ts`): the resolution is
reconstructed only when both `width` and `height` are truthy. -/
def convertDatabaseWallpaper (w : DatabaseWallpaper) : WallpaperItem :=
  { id := w.github_id, name := w.name, path := w.path, sha := w.github_id,
    size := w.size, download_url := w.download_url, html_url := w.html_url,
    category := w.category_name,
    resolution :=
      match jsTruthyNat w.width, jsTruthyNat w.height with
      | some width, some height => some ⟨width, height⟩
      | _, _ => none,
    aspectRatio := w.aspect_ratio, dominantColor := w.dominant_color }

/-- `convertGitHubWallpaper` (`wallpaper-service.ts`). -/
def convertGitHubWallpaper (g : WallpaperItem) (categoryId : Nat)
    (isFeatured : Bool) : NewWallpaper :=
  { github_id := g.sha, name := g.name, path := g.path,
    category_id := categoryId, category_name := g.category,
    download_url := g.download_url, html_url := g.html_url, size := g.size,
    width := (g.resolution).map (fun r => r.width),
    height := (g.resolution).map (fun r => r.height),
    aspect_ratio := g.aspectRatio, dominant_color := g.dominantColor,
    is_featured := isFeatured, download_count := 0, view_count := 0 }

/-- The hard-coded featured-category slugs of `getWallpapersByCategory`. -/
def featuredCategorySlugs : List String :=
  ["anime", "abstract", "nature", "architecture", "digital"]

/-- Arguments of one `updateSyncMeta` call made by the orchestrator,
recorded for the sync-status transition analysis. -/
structure SyncWrite where
  category_name : String
  status : SyncStatus
  count : Nat
  error : Option String
deriving DecidableEq, Repr

/-- Observable behaviour of one orchestrator call: the returned items, the
database afterwards, the category slugs the adapter was invoked for, and
the `updateSyncMeta` calls made. -/
structure ServiceRun where
  items : List WallpaperItem
  db : DbState
  adapterCalls : List String
  syncWrites : List SyncWrite
deriving Repr

/-- The caching loop of `getWallpapersByCategory` (lines 188-212): each
fetched wallpaper is converted and written through `createWallpaper`; a
per-item catch degrades to pushing the fetched item itself, so one bad row
never aborts the loop. -/
def cacheLoop (categoryId : Nat) (isFeatured : Bool) (now : String)
    (db : DbState) : List WallpaperItem → List WallpaperItem × DbState
  | [] => ([], db)
  | g :: rest =>
    match Db.createWallpaper db (convertGitHubWallpaper g categoryId isFeatured) now with
    | (.ok created, db') =>
      let (tail, dbF) := cacheLoop categoryId isFeatured now db' rest
      (convertDatabaseWallpaper created :: tail, dbF)
    | (.error _, db') =>
      let (tail, dbF) := cacheLoop categoryId isFeatured now db' rest
      (g :: tail, dbF)

/-- The try/catch body of `getWallpapersByCategory` (lines 163-233): call
the adapter; on failure record a `failed` SyncMeta row and degrade to `[]`;
on success with an unknown category return the fetched items uncached;
otherwise cache them and record a `completed` SyncMeta row. -/
def fetchAndCache (db : DbState)
    (adapter : String → Except GitHubApi.GitHubApiError (List WallpaperItem))
    (slug : String) (now : String) (databaseCategory : Option DatabaseCategory) :
    ServiceRun :=
  match adapter slug with
  | .error e =>
    let db' := (Db.updateSyncMeta db slug .failed (some 0) (some e.message) now).2
    ⟨[], db', [slug], [⟨slug, .failed, 0, some e.message⟩]⟩
  | .ok githubWallpapers =>
    match databaseCategory with
    | none => ⟨githubWallpapers, db, [slug], []⟩
    | some cat =>
      let isFeatured := featuredCategorySlugs.contains slug
      let (cached, db') := cacheLoop cat.id isFeatured now db githubWallpapers
      let db'' := (Db.updateSyncMeta db' slug .completed (some cached.length) none now).2
      ⟨cached, db'', [slug], [⟨slug, .completed, cached.length, none⟩]⟩

/-- Orchestrator `getWallpapersByCategory` (`wallpaper-service.ts` lines
144-234): cache hit returns the stored rows with no remote call; otherwise
fall back to the adapter and cache the results. The two database reads run
outside the try/catch, so a query error there — the only raising path —
surfaces as `.error`; the adapter is only ever consulted through the caught
`fetchAndCache` body. -/
def getWallpapersByCategory (db : DbState)
    (adapter : String → Except GitHubApi.GitHubApiError (List WallpaperItem))
    (slug : String) (now : String) : Except String ServiceRun :=
  match Db.getCategoryBySlug db slug with
  | some cat =>
    match Db.getWallpapers db { categoryId := some cat.id } with
    | .error e => .error e
    | .ok rows =>
      if rows.length > 0 then
        .ok ⟨rows.map convertDatabaseWallpaper, db, [], []⟩
      else .ok (fetchAndCache db adapter slug now (some cat))
  | none => .ok (fetchAndCache db adapter slug now none)

end Service

namespace Routes

/-- The route-level `orderBy` allow-list of `GET /api/wallpapers`
(`server/routes/wallpapers.ts` line 37). -/
def orderByAllowList : List String :=
  ["name", "size", "download_count", "view_count", "created_at"]

/-- The `orderBy` filter the route passes to `getWallpapers`: values outside
the allow-list become `undefined` (an absent query parameter is `undefined`
and `includes(undefined)` is false). -/
def routeOrderBy (q : Option String) : Option String :=
  match q with
  | some s => if orderByAllowList.contains s then some s else none
  | none => none

end Routes

/-- The filename contains the adapter's resolution pattern
`(\d{3,4})[x×](\d{3,4})` at some position. -/
def hasResPattern (s : String) : Prop :=
  ∃ i, (GitHubApi.matchResAt (s.data.drop i)).isSome

/-! Concrete fixtures used by witnesses and counterexamples. -/

/-- A cached `anime` category row. -/
def exAnimeCategory : DatabaseCategory :=
  { id := 1, slug := "anime", name := "Anime", path := "anime",
    description := none, wallpaper_count := 0, created_at := "t", updated_at := "t" }

/-- A cached wallpaper row under the `anime` category. -/
def exCachedRow : DatabaseWallpaper :=
  { id := 1, github_id := "sha-cached", name := "cached.png",
    path := "anime/cached.png", category_id := 1, category_name := "Anime",
    download_url := "u", html_url := "h", size := 5, width := none,
    height := none, aspect_ratio := none, dominant_color := none,
    is_featured := false, download_count := 0, view_count := 0,
    created_at := "t", updated_at := "t" }

/-- A database holding the `anime` category and one cached wallpaper. -/
def exDbCached : DbState := ⟨[exAnimeCategory], [exCachedRow], [], 2, 2⟩

/-- A database holding the `anime` category and no wallpapers. -/
def exDbNoWallpapers : DbState := ⟨[exAnimeCategory], [], [], 2, 1⟩

/-- An empty database. -/
def exDbEmpty : DbState := ⟨[], [], [], 1, 1⟩

/-- An adapter that raises on every call. -/
def alwaysFailAdapter : String → Except GitHubApi.GitHubApiError (List WallpaperItem) :=
  fun _ => .error ⟨"boom", 500, "u"⟩

/-- An adapter that succeeds on every call with an empty listing. -/
def emptyOkAdapter : String → Except GitHubApi.GitHubApiError (List WallpaperItem) :=
  fun _ => .ok []

/-- A fetched wallpaper item. -/
def exItem : WallpaperItem :=
  { id := "sha-new", name := "new.png", path := "anime/new.png",
    sha := "sha-new", size := 7, download_url := "du", html_url := "hu",
    category := "Anime", resolution := none, aspectRatio := none,
    dominantColor := none }

/-- An adapter that succeeds on every call with exactly one item. -/
def oneItemAdapter : String → Except GitHubApi.GitHubApiError (List WallpaperItem) :=
  fun _ => .ok [exItem]

/-- A fetch oracle on which every fetch fails at the network level. -/
def failFetch : String → Nat → GitHubApi.FetchOutcome := fun _ _ => .netFail

/-- A JSON oracle returning an empty listing everywhere. -/
def emptyJson : String → List GitHubApi.GitHubContentItem := fun _ => []

/-- A fetch oracle answering HTTP 429 to every attempt. -/
def all429Fetch : Nat → GitHubApi.FetchOutcome :=
  fun _ => .response 429 "Too Many Requests"

/-- The network error produced by the first fetch of the repository root. -/
def exNetErr : GitHubApi.GitHubApiError :=
  ⟨GitHubApi.networkErrMsg (GitHubApi.buildApiUrl ""), 0, GitHubApi.buildApiUrl ""⟩

/-- A new wallpaper for the `anime` category. -/
def exNewWallpaper : NewWallpaper :=
  { github_id := "sha-a", name := "a.png", path := "anime/a.png",
    category_id := 1, category_name := "Anime", download_url := "du",
    html_url := "hu", size := 9, width := none, height := none,
    aspect_ratio := none, dominant_color := none, is_featured := false,
    download_count := 0, view_count := 0 }

/-- A second new wallpaper sharing `exNewWallpaper`'s `github_id`. -/
def exNewWallpaperDup : NewWallpaper := { exNewWallpaper with name := "a-copy.png" }

/-- A new category. -/
def exNewCategory : NewCategory :=
  { slug := "nature", name := "Nature", path := "nature",
    description := none, wallpaper_count := 0 }

/-- A directory entry whose filename carries a `1920x1080` pattern. -/
def exResItem : GitHubApi.GitHubContentItem :=
  { name := "wall-1920x1080.png", path := "anime/wall-1920x1080.png",
    sha := "sha-res", size := 11, type := "file", download_url := some "du",
    html_url := "hu" }

/-! Supporting lemmas. -/

/-- The category read of the orchestrator: `getWallpapers {categoryId}`
always succeeds and returns `rowsByCategory`. -/
theorem getWallpapers_byCategory (db : DbState) (i : Nat) :
    Db.getWallpapers db { categoryId := some i } = .ok (Db.rowsByCategory db i) := rfl

/-- `find?` over an appended fresh row after filtering out the key:
the lookup lands on the new row. -/
theorem find?_filter_append (l : List SyncMetaRow) (row : SyncMetaRow)
    (name : String) (h : row.category_name = name) :
    ((l.filter (fun r => r.category_name != name)) ++ [row]).find?
      (fun r => r.category_name == name) = some row := by
  induction l with
  | nil => simp [List.find?, h]
  | cons r rest ih =>
    by_cases hr : r.category_name = name
    · simpa [hr] using ih
    · simpa [List.find?, hr] using ih

/-- Claim C10: when the requested slug is not in the persistent cache and
the adapter fetch succeeds, `getWallpapersByCategory` returns the fetched
wallpapers unchanged and leaves the whole database (wallpaper rows and sync
metadata included) exactly as it was, making no sync-meta write. -/
theorem uncachedCategorySuccessFrame (db : DbState)
    (adapter : String → Except GitHubApi.GitHubApiError (List WallpaperItem))
    (slug now : String) (items : List WallpaperItem)
    (hnone : Db.getCategoryBySlug db slug = none)
    (hAd : adapter slug = .ok items) :
    Service.getWallpapersByCategory db adapter slug now = .ok ⟨items, db, [slug], []⟩ := by
  unfold Service.getWallpapersByCategory
  rw [hnone]
  unfold Service.fetchAndCache
  rw [hAd]

/-- Witness for C10: a concrete empty database, an unknown slug, and a
one-item adapter success. -/
theorem uncachedCategorySuccessFrame_witness :
    Service.getWallpapersByCategory exDbEmpty oneItemAdapter "mountains" "t0"
      = .ok ⟨[exItem], exDbEmpty, ["mountains"], []⟩ :=
  uncachedCategorySuccessFrame exDbEmpty oneItemAdapter "mountains" "t0" [exItem] rfl rfl

/-- Claim C4: starting from a database with no row for the given
`github_id` (and a fresh autoincrement id, as the schema guarantees),
calling `createWallpaper` twice with that `github_id` leaves exactly one
matching row, and the second call returns the row created by the first
call, with the database unchanged by the second call. -/
theorem createWallpaperIdempotent (db : DbState) (w w2 : NewWallpaper)
    (now now2 : String)
    (hAbsent : Db.getWallpaperByGithubId db w.github_id = none)
    (hFresh : ∀ r ∈ db.wallpapers, r.id ≠ db.nextWallpaperId)
    (hSame : w2.github_id = w.github_id) :
    ∃ c1 db1,
      Db.createWallpaper db w now = (.ok c1, db1)
      ∧ Db.createWallpaper db1 w2 now2 = (.ok c1, db1)
      ∧ (db1.wallpapers.filter (fun r => r.github_id == w.github_id)).length = 1 := by
  have hrow : (Db.mkStoredWallpaper db.nextWallpaperId w now).github_id = w.github_id := rfl
  have hid : (Db.mkStoredWallpaper db.nextWallpaperId w now).id = db.nextWallpaperId := rfl
  have hlook :
      Db.getWallpaperById
        { db with
            wallpapers := db.wallpapers ++ [Db.mkStoredWallpaper db.nextWallpaperId w now],
            nextWallpaperId := db.nextWallpaperId + 1 }
        db.nextWallpaperId = some (Db.mkStoredWallpaper db.nextWallpaperId w now) := by
    unfold Db.getWallpaperById
    rw [List.find?_append]
    have h1 : db.wallpapers.find? (fun r => r.id == db.nextWallpaperId) = none :=
      List.find?_eq_none.mpr (fun r hr => by simp [hFresh r hr])
    rw [h1]
    simp [List.find?, Db.mkStoredWallpaper]
  have hlook2 :
      Db.getWallpaperByGithubId
        { db with
            wallpapers := db.wallpapers ++ [Db.mkStoredWallpaper db.nextWallpaperId w now],
            nextWallpaperId := db.nextWallpaperId + 1 }
        w2.github_id = some (Db.mkStoredWallpaper db.nextWallpaperId w now) := by
    unfold Db.getWallpaperByGithubId
    rw [hSame, List.find?_append]
    unfold Db.getWallpaperByGithubId at hAbsent
    rw [hAbsent]
    simp [List.find?, Db.mkStoredWallpaper]
  refine ⟨Db.mkStoredWallpaper db.nextWallpaperId w now,
    { db with
        wallpapers := db.wallpapers ++ [Db.mkStoredWallpaper db.nextWallpaperId w now],
        nextWallpaperId := db.nextWallpaperId + 1 }, ?_, ?_, ?_⟩
  · simp only [Db.createWallpaper, hAbsent, hlook]
  · simp only [Db.createWallpaper, hlook2]
  · have hnil : db.wallpapers.filter (fun r => r.github_id == w.github_id) = [] := by
      refine List.filter_eq_nil_iff.mpr ?_
      unfold Db.getWallpaperByGithubId at hAbsent
      exact List.find?_eq_none.mp hAbsent
    simp [List.filter_append, hnil, List.filter, Db.mkStoredWallpaper]

/-- Witness for C4: two creates with the same `github_id` on the empty
database. -/
theorem createWallpaperIdempotent_witness :
    ∃ c1 db1,
      Db.createWallpaper exDbEmpty exNewWallpaper "t1" = (.ok c1, db1)
      ∧ Db.createWallpaper db1 exNewWallpaperDup "t2" = (.ok c1, db1)
      ∧ (db1.wallpapers.filter (fun r => r.github_id == exNewWallpaper.github_id)).length = 1 :=
  createWallpaperIdempotent exDbEmpty exNewWallpaper exNewWallpaperDup "t1" "t2" rfl
    (by intro r hr; simp [exDbEmpty] at hr) rfl

/-- Claim C9: starting from a database with no category for the given slug
(and a fresh autoincrement id), calling `createCategory` twice with that
slug leaves exactly one matching row, and the second call returns the row
created by the first call, unchanged, with no error. -/
theorem createCategoryIdempotent (db : DbState) (c c2 : NewCategory)
    (now now2 : String)
    (hAbsent : Db.getCategoryBySlug db c.slug = none)
    (hFresh : ∀ r ∈ db.categories, r.id ≠ db.nextCategoryId)
    (hSame : c2.slug = c.slug) :
    ∃ r1 db1,
      Db.createCategory db c now = (.ok r1, db1)
      ∧ Db.createCategory db1 c2 now2 = (.ok r1, db1)
      ∧ (db1.categories.filter (fun r => r.slug == c.slug)).length = 1 := by
  have hlook :
      Db.getCategoryById
        { db with
            categories := db.categories ++
              [{ id := db.nextCategoryId, slug := c.slug, name := c.name, path := c.path,
                 description := jsStringOrNull c.description,
                 wallpaper_count := c.wallpaper_count,
                 created_at := now, updated_at := now }],
            nextCategoryId := db.nextCategoryId + 1 }
        db.nextCategoryId
        = some { id := db.nextCategoryId, slug := c.slug, name := c.name, path := c.path,
                 description := jsStringOrNull c.description,
                 wallpaper_count := c.wallpaper_count,
                 created_at := now, updated_at := now } := by
    unfold Db.getCategoryById
    rw [List.find?_append]
    have h1 : db.categories.find? (fun r => r.id == db.nextCategoryId) = none :=
      List.find?_eq_none.mpr (fun r hr => by simp [hFresh r hr])
    rw [h1]
    simp [List.find?]
  have hlook2 :
      Db.getCategoryBySlug
        { db with
            categories := db.categories ++
              [{ id := db.nextCategoryId, slug := c.slug, name := c.name, path := c.path,
                 description := jsStringOrNull c.description,
                 wallpaper_count := c.wallpaper_count,
                 created_at := now, updated_at := now }],
            nextCategoryId := db.nextCategoryId + 1 }
        c2.slug
        = some { id := db.nextCategoryId, slug := c.slug, name := c.name, path := c.path,
                 description := jsStringOrNull c.description,
                 wallpaper_count := c.wallpaper_count,
                 created_at := now, updated_at := now } := by
    unfold Db.getCategoryBySlug
    rw [hSame, List.find?_append]
    unfold Db.getCategoryBySlug at hAbsent
    rw [hAbsent]
    simp [List.find?]
  refine ⟨{ id := db.nextCategoryId, slug := c.slug, name := c.name, path := c.path,
            description := jsStringOrNull c.description,
            wallpaper_count := c.wallpaper_count,
            created_at := now, updated_at := now },
    { db with
        categories := db.categories ++
          [{ id := db.nextCategoryId, slug := c.slug, name := c.name, path := c.path,
             description := jsStringOrNull c.description,
             wallpaper_count := c.wallpaper_count,
             created_at := now, updated_at := now }],
        nextCategoryId := db.nextCategoryId + 1 }, ?_, ?_, ?_⟩
  · simp only [Db.createCategory, hAbsent, hlook]
  · simp only [Db.createCategory, hlook2]
  · have hnil : db.categories.filter (fun r => r.slug == c.slug) = [] := by
      refine List.filter_eq_nil_iff.mpr ?_
      unfold Db.getCategoryBySlug at hAbsent
      exact List.find?_eq_none.mp hAbsent
    simp [List.filter_append, hnil, List.filter]

/-- Witness for C9: two creates with the same slug on the empty database. -/
theorem createCategoryIdempotent_witness :
    ∃ r1 db1,
      Db.createCategory exDbEmpty exNewCategory "t1" = (.ok r1, db1)
      ∧ Db.createCategory db1 exNewCategory "t2" = (.ok r1, db1)
      ∧ (db1.categories.filter (fun r => r.slug == exNewCategory.slug)).length = 1 :=
  createCategoryIdempotent exDbEmpty exNewCategory exNewCategory "t1" "t2" rfl
    (by intro r hr; simp [exDbEmpty] at hr) rfl

/-- Counterexample to C5 as stated: `"github_id"` is outside the fixed
allow-list of order-by columns, yet `getWallpapers` interpolates it into the
ORDER BY clause unchanged instead of falling back to `created_at DESC` —
the fallback in `wallpapers.ts` applies only to absent or empty values. -/
theorem orderByFallbackCounterexample :
    Routes.orderByAllowList.contains "github_id" = false
    ∧ Db.orderClause { orderBy := some "github_id" } = ("github_id", "DESC")
    ∧ ("github_id", "DESC") ≠ (("created_at" : String), ("DESC" : String)) :=
  ⟨rfl, rfl, by decide⟩

/-- Claim C5 as amended: `getWallpapers` itself falls back to `created_at`
only when `orderBy` is absent or empty and uses any other value as the
ORDER BY column unvalidated; the allow-list lives in the HTTP route
(`GET /api/wallpapers`), which maps unrecognized `orderBy` query values to
absent, so requests through the route with an unrecognized `orderBy` are
ordered by `created_at`, `DESC` unless a direction is supplied. -/
theorem orderByFallback :
    (∀ (filters : DatabaseWallpaperFilters) (v : String),
       filters.orderBy = some v → v ≠ "" → (Db.orderClause filters).1 = v)
    ∧ (∀ filters : DatabaseWallpaperFilters,
         filters.orderBy = none ∨ filters.orderBy = some "" →
         (Db.orderClause filters).1 = "created_at")
    ∧ (∀ qOrderBy qDir : Option String,
         (∀ v, qOrderBy = some v → v ∉ Routes.orderByAllowList) →
         Db.orderClause { orderBy := Routes.routeOrderBy qOrderBy, orderDirection := qDir }
           = ("created_at", jsStringOr qDir "DESC")) := by
  refine ⟨?_, ?_, ?_⟩
  · intro filters v hv hne
    simp [Db.orderClause, jsStringOr, hv, hne]
  · intro filters hv
    rcases hv with hv | hv <;> simp [Db.orderClause, jsStringOr, hv]
  · intro qOrderBy qDir hout
    have hnone : Routes.routeOrderBy qOrderBy = none := by
      match qOrderBy with
      | none => rfl
      | some s =>
        have hmem : s ∉ Routes.orderByAllowList := hout s rfl
        have hc : Routes.orderByAllowList.contains s = false := by simpa using hmem
        simp only [Routes.routeOrderBy, hc, Bool.false_eq_true, if_false]
    simp [Db.orderClause, jsStringOr, hnone]

/-- Witness for C5 (amended): an allow-listed value is used as given, and a
route-level request with an unrecognized value is ordered by
`created_at DESC`. -/
theorem orderByFallback_witness :
    (Db.orderClause { orderBy := some "name" }).1 = "name"
    ∧ Db.orderClause { orderBy := Routes.routeOrderBy (some "bogus") }
        = ("created_at", "DESC") :=
  ⟨orderByFallback.1 { orderBy := some "name" } "name" rfl (by decide),
   orderByFallback.2.2 (some "bogus") none
     (by intro v hv; cases hv; decide)⟩

/-- Claim C7: `createMultipleWallpapers` wraps the whole batch in one
transaction whose failure leaves the database untouched; the insert is
INSERT OR IGNORE, so github_ids already present are skipped rather than
erroring (the call succeeds and their row count is unchanged). -/
theorem bulkInsertTransaction :
    (∀ (db : DbState) (steps : List (DbState → Except String DbState)),
       (Db.runTransaction db steps).2 = false → (Db.runTransaction db steps).1 = db)
    ∧ (∀ (db : DbState) (ws : List NewWallpaper) (now : String),
         (Db.createMultipleWallpapers db ws now).2 = true)
    ∧ (∀ (db : DbState) (ws : List NewWallpaper) (now : String) (g : String),
         (∃ r ∈ db.wallpapers, r.github_id = g) →
         ((Db.createMultipleWallpapers db ws now).1.wallpapers.filter
             (fun r => r.github_id == g)).length
           = (db.wallpapers.filter (fun r => r.github_id == g)).length) := by
  have hsteps : ∀ (ws : List NewWallpaper) (now : String) (db : DbState),
      Db.runSteps db (ws.map (fun w => fun d => Except.ok (Db.insertOrIgnoreWallpaper now d w)))
        = .ok (ws.foldl (Db.insertOrIgnoreWallpaper now) db) := by
    intro ws now
    induction ws with
    | nil => intro db; rfl
    | cons w rest ih => intro db; simpa [Db.runSteps] using ih _
  have hstep : ∀ (now : String) (db : DbState) (w : NewWallpaper) (g : String),
      (∃ r ∈ db.wallpapers, r.github_id = g) →
      ((Db.insertOrIgnoreWallpaper now db w).wallpapers.filter
          (fun r => r.github_id == g)).length
        = (db.wallpapers.filter (fun r => r.github_id == g)).length
      ∧ ∃ r ∈ (Db.insertOrIgnoreWallpaper now db w).wallpapers, r.github_id = g := by
    intro now db w g hpres
    unfold Db.insertOrIgnoreWallpaper
    by_cases hdup : db.wallpapers.any (fun r => r.github_id == w.github_id) = true
    · rw [if_pos hdup]
      exact ⟨rfl, hpres⟩
    · rw [if_neg hdup]
      have hne : w.github_id ≠ g := by
        intro hEq
        rcases hpres with ⟨r, hr, hrg⟩
        exact hdup (List.any_eq_true.mpr ⟨r, hr, by simp [hrg, hEq]⟩)
      constructor
      · have hbe : (w.github_id == g) = false := beq_eq_false_iff_ne.mpr hne
        simp [List.filter_append, List.filter, Db.mkStoredWallpaper, hbe]
      · rcases hpres with ⟨r, hr, hrg⟩
        exact ⟨r, List.mem_append_left _ hr, hrg⟩
  have hfold : ∀ (ws : List NewWallpaper) (now : String) (db : DbState) (g : String),
      (∃ r ∈ db.wallpapers, r.github_id = g) →
      ((ws.foldl (Db.insertOrIgnoreWallpaper now) db).wallpapers.filter
          (fun r => r.github_id == g)).length
        = (db.wallpapers.filter (fun r => r.github_id == g)).length := by
    intro ws now
    induction ws with
    | nil => intro db g _; rfl
    | cons w rest ih =>
      intro db g hpres
      have h1 := hstep now db w g hpres
      calc ((rest.foldl (Db.insertOrIgnoreWallpaper now)
              (Db.insertOrIgnoreWallpaper now db w)).wallpapers.filter
                (fun r => r.github_id == g)).length
          = ((Db.insertOrIgnoreWallpaper now db w).wallpapers.filter
              (fun r => r.github_id == g)).length := ih _ g h1.2
        _ = (db.wallpapers.filter (fun r => r.github_id == g)).length := h1.1
  refine ⟨?_, ?_, ?_⟩
  · intro db steps hfail
    unfold Db.runTransaction at hfail ⊢
    rcases h : Db.runSteps db steps with db' | e <;> simp [h] at hfail ⊢
  · intro db ws now
    simp [Db.createMultipleWallpapers, Db.runTransaction, hsteps]
  · intro db ws now g hpres
    have : Db.createMultipleWallpapers db ws now
        = (ws.foldl (Db.insertOrIgnoreWallpaper now) db, true) := by
      simp [Db.createMultipleWallpapers, Db.runTransaction, hsteps]
    rw [this]
    exact hfold ws now db g hpres

/-- Witness for C7: a batch holding a duplicate of an already-cached
github_id is skipped without an error. -/
theorem bulkInsertTransaction_witness :
    ((Db.createMultipleWallpapers exDbCached [{ exNewWallpaper with github_id := "sha-cached" }] "t1").1.wallpapers.filter
        (fun r => r.github_id == "sha-cached")).length
      = (exDbCached.wallpapers.filter (fun r => r.github_id == "sha-cached")).length :=
  bulkInsertTransaction.2.2 exDbCached [{ exNewWallpaper with github_id := "sha-cached" }] "t1"
    "sha-cached" ⟨exCachedRow, by simp [exDbCached], rfl⟩

theorem fetchGo_429_step (o : Nat → GitHubApi.FetchOutcome) (url : String)
    (rc left : Nat) (txt : String) (h : o rc = .response 429 txt) :
    GitHubApi.fetchGo o url rc (left + 1)
      = ⟨(GitHubApi.fetchGo o url (rc + 1) left).result,
         (GitHubApi.fetchGo o url (rc + 1) left).attempts + 1,
         GitHubApi.retryDelay :: (GitHubApi.fetchGo o url (rc + 1) left).delays⟩ := by
  rw [GitHubApi.fetchGo, h]
  simp

theorem fetchGo_429_exhaust (o : Nat → GitHubApi.FetchOutcome) (url : String)
    (rc : Nat) (txt : String) (h : o rc = .response 429 txt) :
    GitHubApi.fetchGo o url rc 0
      = ⟨.error ⟨GitHubApi.rateLimitMsg, 429, url⟩, 1, []⟩ := by
  rw [GitHubApi.fetchGo, h]
  simp

theorem fetchGo_ok (o : Nat → GitHubApi.FetchOutcome) (url : String)
    (rc left : Nat) (s : Nat) (txt : String) (h : o rc = .response s txt)
    (hs : s ≠ 429) (hok : GitHubApi.statusOk s = true) :
    GitHubApi.fetchGo o url rc left = ⟨.ok rc, 1, []⟩ := by
  cases left with
  | zero => rw [GitHubApi.fetchGo, h]; simp [hs, hok]
  | succ left => rw [GitHubApi.fetchGo, h]; simp [hs, hok]

theorem fetchGo_httpError (o : Nat → GitHubApi.FetchOutcome) (url : String)
    (rc left : Nat) (s : Nat) (txt : String) (h : o rc = .response s txt)
    (hs : s ≠ 429) (hok : GitHubApi.statusOk s = false) :
    GitHubApi.fetchGo o url rc left
      = ⟨.error ⟨GitHubApi.fetchFailMsg url txt, s, url⟩, 1, []⟩ := by
  cases left with
  | zero => rw [GitHubApi.fetchGo, h]; simp [hs, hok]
  | succ left => rw [GitHubApi.fetchGo, h]; simp [hs, hok]

theorem fetchGo_netFail (o : Nat → GitHubApi.FetchOutcome) (url : String)
    (rc left : Nat) (h : o rc = .netFail) :
    GitHubApi.fetchGo o url rc left
      = ⟨.error ⟨GitHubApi.networkErrMsg url, 0, url⟩, 1, []⟩ := by
  cases left with
  | zero => rw [GitHubApi.fetchGo, h]
  | succ left => rw [GitHubApi.fetchGo, h]

theorem fetchGo_all429 (o : Nat → GitHubApi.FetchOutcome) (url : String) :
    ∀ left rc e, (GitHubApi.fetchGo o url rc left).result = .error e →
      e.status = 429 →
      ∀ i, rc ≤ i → i ≤ rc + left → ∃ txt, o i = .response 429 txt := by
  have notFour : ∀ left rc e s txt, o rc = .response s txt → s ≠ 429 →
      (GitHubApi.fetchGo o url rc left).result = .error e → e.status = 429 → False := by
    intro left rc e s txt ho hs hres hstat
    by_cases hok : GitHubApi.statusOk s = true
    · rw [fetchGo_ok o url rc left s txt ho hs hok] at hres
      simp at hres
    · rw [fetchGo_httpError o url rc left s txt ho hs
        (by simpa using hok)] at hres
      simp at hres
      rw [← hres] at hstat
      simp at hstat
      exact absurd hstat hs
  have notNet : ∀ left rc e, o rc = .netFail →
      (GitHubApi.fetchGo o url rc left).result = .error e → e.status = 429 → False := by
    intro left rc e ho hres hstat
    rw [fetchGo_netFail o url rc left ho] at hres
    simp at hres
    rw [← hres] at hstat
    simp at hstat
  intro left
  induction left with
  | zero =>
    intro rc e hres hstat i hlo hhi
    have hieq : i = rc := by omega
    subst hieq
    cases ho : o i with
    | response s txt =>
      by_cases hs : s = 429
      · subst hs; exact ⟨txt, rfl⟩
      · exact absurd hstat (fun h => notFour 0 i e s txt ho hs hres h)
    | netFail => exact absurd hstat (fun h => notNet 0 i e ho hres h)
  | succ left ih =>
    intro rc e hres hstat i hlo hhi
    cases ho : o rc with
    | response s txt =>
      by_cases hs : s = 429
      · subst hs
        rw [fetchGo_429_step o url rc left txt ho] at hres
        by_cases hirc : i = rc
        · subst hirc; exact ⟨txt, ho⟩
        · exact ih (rc + 1) e hres hstat i (by omega) (by omega)
      · exact absurd hstat (fun h => notFour (left + 1) rc e s txt ho hs hres h)
    | netFail => exact absurd hstat (fun h => notNet (left + 1) rc e ho hres h)

theorem fetchGo_429_stepN (o : Nat → GitHubApi.FetchOutcome) (url : String)
    (rc left rc' left' : Nat) (txt : String) (h : o rc = .response 429 txt)
    (hrc : rc' = rc + 1) (hl : left' = left + 1) :
    GitHubApi.fetchGo o url rc left'
      = ⟨(GitHubApi.fetchGo o url rc' left).result,
         (GitHubApi.fetchGo o url rc' left).attempts + 1,
         GitHubApi.retryDelay :: (GitHubApi.fetchGo o url rc' left).delays⟩ := by
  subst hrc
  subst hl
  exact fetchGo_429_step o url rc left txt h

/-- Claim C6: on HTTP 429 the fetch is retried up to 3 times, sleeping the
fixed 5-second delay before each retry, and only when all four attempts hit
429 does it surface the typed rate-limit error carrying status 429 and the
failing URL; a first response with any other status means exactly one fetch
(no retry), surfacing a typed error with that status and URL when it is not
2xx. -/
theorem rateLimitRetry :
    (∀ (oracle : Nat → GitHubApi.FetchOutcome) (url : String),
       (∀ i, i ≤ GitHubApi.retryAttempts → ∃ txt, oracle i = .response 429 txt) →
       GitHubApi.fetchWithRateLimit oracle url 0
         = ⟨.error ⟨GitHubApi.rateLimitMsg, 429, url⟩, 4,
            [GitHubApi.retryDelay, GitHubApi.retryDelay, GitHubApi.retryDelay]⟩)
    ∧ (∀ (oracle : Nat → GitHubApi.FetchOutcome) (url : String) (s : Nat) (txt : String),
         oracle 0 = .response s txt → s ≠ 429 →
         (GitHubApi.fetchWithRateLimit oracle url 0).attempts = 1
         ∧ (GitHubApi.statusOk s = false →
             (GitHubApi.fetchWithRateLimit oracle url 0).result
               = .error ⟨GitHubApi.fetchFailMsg url txt, s, url⟩))
    ∧ (∀ (oracle : Nat → GitHubApi.FetchOutcome) (url : String)
         (e : GitHubApi.GitHubApiError),
         (GitHubApi.fetchWithRateLimit oracle url 0).result = .error e →
         e.status = 429 →
         ∀ i, i ≤ GitHubApi.retryAttempts → ∃ txt, oracle i = .response 429 txt) := by
  refine ⟨?_, ?_, ?_⟩
  · intro oracle url h
    obtain ⟨t0, h0⟩ := h 0 (by decide)
    obtain ⟨t1, h1⟩ := h 1 (by decide)
    obtain ⟨t2, h2⟩ := h 2 (by decide)
    obtain ⟨t3, h3⟩ := h 3 (by decide)
    have e3 := fetchGo_429_exhaust oracle url 3 t3 h3
    have e2 : GitHubApi.fetchGo oracle url 2 1
        = ⟨.error ⟨GitHubApi.rateLimitMsg, 429, url⟩, 2, [GitHubApi.retryDelay]⟩ := by
      rw [fetchGo_429_stepN oracle url 2 0 3 1 t2 h2 rfl rfl, e3]
    have e1 : GitHubApi.fetchGo oracle url 1 2
        = ⟨.error ⟨GitHubApi.rateLimitMsg, 429, url⟩, 3,
           [GitHubApi.retryDelay, GitHubApi.retryDelay]⟩ := by
      rw [fetchGo_429_stepN oracle url 1 1 2 2 t1 h1 rfl rfl, e2]
    have e0 : GitHubApi.fetchGo oracle url 0 3
        = ⟨.error ⟨GitHubApi.rateLimitMsg, 429, url⟩, 4,
           [GitHubApi.retryDelay, GitHubApi.retryDelay, GitHubApi.retryDelay]⟩ := by
      rw [fetchGo_429_stepN oracle url 0 2 1 3 t0 h0 rfl rfl, e1]
    exact e0
  · intro oracle url s txt h0 hs
    by_cases hok : GitHubApi.statusOk s = true
    · rw [show GitHubApi.fetchWithRateLimit oracle url 0
          = GitHubApi.fetchGo oracle url 0 3 from rfl,
        fetchGo_ok oracle url 0 3 s txt h0 hs hok]
      exact ⟨rfl, fun hcon => by rw [hok] at hcon; cases hcon⟩
    · have hokF : GitHubApi.statusOk s = false := by simpa using hok
      rw [show GitHubApi.fetchWithRateLimit oracle url 0
          = GitHubApi.fetchGo oracle url 0 3 from rfl,
        fetchGo_httpError oracle url 0 3 s txt h0 hs hokF]
      exact ⟨rfl, fun _ => rfl⟩
  · intro oracle url e hres hstat i hile
    have hile' : i ≤ 3 := by simpa [GitHubApi.retryAttempts] using hile
    exact fetchGo_all429 oracle url 3 0 e hres hstat i (by omega) (by omega)


/-- Witness for C6: the constant-429 oracle exhausts all four attempts with
three 5s delays. -/
theorem rateLimitRetry_witness :
    GitHubApi.fetchWithRateLimit all429Fetch "https://api.github.com/x" 0
      = ⟨.error ⟨GitHubApi.rateLimitMsg, 429, "https://api.github.com/x"⟩, 4,
         [GitHubApi.retryDelay, GitHubApi.retryDelay, GitHubApi.retryDelay]⟩ :=
  rateLimitRetry.1 all429Fetch "https://api.github.com/x"
    (fun _ _ => ⟨"Too Many Requests", rfl⟩)

/-- `scanResolution` succeeds exactly when the resolution pattern occurs at
some position of the string. -/
theorem scanResolution_isSome_iff (cs : List Char) :
    (GitHubApi.scanResolution cs).isSome
      ↔ ∃ i, (GitHubApi.matchResAt (cs.drop i)).isSome := by
  induction cs with
  | nil =>
    constructor
    · intro hsome
      simp [GitHubApi.scanResolution] at hsome
    · rintro ⟨i, hi⟩
      rw [List.drop_nil, show GitHubApi.matchResAt [] = none from rfl] at hi
      simp at hi
  | cons c rest ih =>
    rw [GitHubApi.scanResolution]
    rcases hm : GitHubApi.matchResAt (c :: rest) with _ | r
    · simp only [Option.isSome_none]
      rw [ih]
      constructor
      · rintro ⟨i, hi⟩
        exact ⟨i + 1, by simpa using hi⟩
      · rintro ⟨i, hi⟩
        match i with
        | 0 =>
          rw [List.drop_zero, hm] at hi
          simp at hi
        | j + 1 => exact ⟨j, by simpa using hi⟩
    · simp only [Option.isSome_some, true_iff]
      exact ⟨0, by simp [hm]⟩

/-- Claim C8: for every filename containing the adapter's WIDTHxHEIGHT
pattern, `extractFileInfo` populates the resolution from the parsed width
and height and classifies the aspect ratio as landscape when
width/height > 1.1, portrait when width/height < 0.9, and square otherwise;
for a filename with no such pattern, resolution and aspect ratio are left
unset. -/
theorem resolutionParsing :
    (∀ (item : GitHubApi.GitHubContentItem) (category : String),
       ((GitHubApi.extractFileInfo item category).resolution.isSome ↔ hasResPattern item.name)
       ∧ (∀ w h : Nat, GitHubApi.scanResolution item.name.data = some (w, h) →
            (GitHubApi.extractFileInfo item category).resolution = some ⟨w, h⟩
            ∧ (GitHubApi.extractFileInfo item category).aspectRatio
                = some (GitHubApi.getAspectRatio w h))
       ∧ (GitHubApi.scanResolution item.name.data = none →
            (GitHubApi.extractFileInfo item category).resolution = none
            ∧ (GitHubApi.extractFileInfo item category).aspectRatio = none))
    ∧ (∀ w h : Nat, 0 < h →
         ((GitHubApi.getAspectRatio w h = .landscape ↔ (11 : ℚ)/10 < (w : ℚ)/(h : ℚ))
          ∧ (GitHubApi.getAspectRatio w h = .portrait ↔ (w : ℚ)/(h : ℚ) < (9 : ℚ)/10))) := by
  constructor
  · intro item category
    refine ⟨?_, ?_, ?_⟩
    · rw [show (GitHubApi.extractFileInfo item category).resolution
          = GitHubApi.extractResolutionFromName item.name from rfl]
      unfold GitHubApi.extractResolutionFromName hasResPattern
      rw [← scanResolution_isSome_iff]
      cases GitHubApi.scanResolution item.name.data <;> simp
    · intro w h hscan
      constructor
      · rw [show (GitHubApi.extractFileInfo item category).resolution
            = GitHubApi.extractResolutionFromName item.name from rfl]
        unfold GitHubApi.extractResolutionFromName
        rw [hscan]
        rfl
      · rw [show (GitHubApi.extractFileInfo item category).aspectRatio
            = (GitHubApi.extractResolutionFromName item.name).map
                (fun r => GitHubApi.getAspectRatio r.width r.height) from rfl]
        unfold GitHubApi.extractResolutionFromName
        rw [hscan]
        rfl
    · intro hscan
      constructor
      · rw [show (GitHubApi.extractFileInfo item category).resolution
            = GitHubApi.extractResolutionFromName item.name from rfl]
        unfold GitHubApi.extractResolutionFromName
        rw [hscan]
        rfl
      · rw [show (GitHubApi.extractFileInfo item category).aspectRatio
            = (GitHubApi.extractResolutionFromName item.name).map
                (fun r => GitHubApi.getAspectRatio r.width r.height) from rfl]
        unfold GitHubApi.extractResolutionFromName
        rw [hscan]
        rfl
  · intro w h hh
    have hq : (0 : ℚ) < (h : ℚ) := by exact_mod_cast hh
    constructor
    · have hcast : (11 : ℚ)/10 < (w : ℚ)/(h : ℚ) ↔ 11 * h < 10 * w := by
        rw [div_lt_div_iff₀ (by norm_num) hq]
        constructor
        · intro h1
          have h2 : ((11 * h : ℕ) : ℚ) < ((10 * w : ℕ) : ℚ) := by push_cast; linarith
          exact_mod_cast h2
        · intro h1
          have h2 : ((11 * h : ℕ) : ℚ) < ((10 * w : ℕ) : ℚ) := by exact_mod_cast h1
          push_cast at h2
          linarith
      rw [hcast]
      unfold GitHubApi.getAspectRatio
      by_cases hc : 11 * h < 10 * w
      · simp [hc]
      · by_cases hc2 : 10 * w < 9 * h <;> simp [hc, hc2]
    · have hcast : (w : ℚ)/(h : ℚ) < (9 : ℚ)/10 ↔ 10 * w < 9 * h := by
        rw [div_lt_div_iff₀ hq (by norm_num)]
        constructor
        · intro h1
          have h2 : ((10 * w : ℕ) : ℚ) < ((9 * h : ℕ) : ℚ) := by push_cast; linarith
          exact_mod_cast h2
        · intro h1
          have h2 : ((10 * w : ℕ) : ℚ) < ((9 * h : ℕ) : ℚ) := by exact_mod_cast h1
          push_cast at h2
          linarith
      rw [hcast]
      unfold GitHubApi.getAspectRatio
      by_cases hc : 11 * h < 10 * w
      · have hnc : ¬ 10 * w < 9 * h := by omega
        simp [hc, hnc]
      · by_cases hc2 : 10 * w < 9 * h <;> simp [hc, hc2]


/-- Witness for C8: the filename `wall-1920x1080.png` parses to 1920x1080
and classifies as landscape. -/
theorem resolutionParsing_witness :
    (GitHubApi.extractFileInfo exResItem "anime").resolution = some ⟨1920, 1080⟩
    ∧ (GitHubApi.extractFileInfo exResItem "anime").aspectRatio
        = some (GitHubApi.getAspectRatio 1920 1080) :=
  (resolutionParsing.1 exResItem "anime").2.1 1920 1080 rfl

/-- A string with a non-empty prefix is non-empty. -/
theorem append_ne_empty_left (p t : String) (hp : 0 < p.length) : p ++ t ≠ "" := by
  intro hc
  have hlen := congrArg String.length hc
  rw [String.length_append] at hlen
  have h0 : String.length "" = 0 := rfl
  rw [h0] at hlen
  omega

theorem networkErrMsg_ne (url : String) : GitHubApi.networkErrMsg url ≠ "" :=
  append_ne_empty_left "Network error fetching " url (by decide)

theorem fetchFailMsg_ne (url txt : String) : GitHubApi.fetchFailMsg url txt ≠ "" := by
  unfold GitHubApi.fetchFailMsg
  apply append_ne_empty_left
  rw [String.length_append, String.length_append]
  have : String.length "Failed to fetch " = 16 := rfl
  omega

theorem notFoundMsg_ne (slug : String) :
    "Category \"" ++ slug ++ "\" not found" ≠ "" := by
  apply append_ne_empty_left
  rw [String.length_append]
  have : String.length "Category \"" = 10 := rfl
  omega

theorem fetchGo_error_message (o : Nat → GitHubApi.FetchOutcome) (url : String) :
    ∀ left rc e, (GitHubApi.fetchGo o url rc left).result = .error e → e.message ≠ "" := by
  intro left
  induction left with
  | zero =>
    intro rc e hres
    cases ho : o rc with
    | netFail =>
      rw [fetchGo_netFail o url rc 0 ho] at hres
      simp at hres
      rw [← hres]
      exact networkErrMsg_ne url
    | response s txt =>
      by_cases hs : s = 429
      · subst hs
        rw [fetchGo_429_exhaust o url rc txt ho] at hres
        simp at hres
        rw [← hres]
        show GitHubApi.rateLimitMsg ≠ ""
        decide
      · by_cases hok : GitHubApi.statusOk s = true
        · rw [fetchGo_ok o url rc 0 s txt ho hs hok] at hres
          simp at hres
        · rw [fetchGo_httpError o url rc 0 s txt ho hs (by simpa using hok)] at hres
          simp at hres
          rw [← hres]
          exact fetchFailMsg_ne url txt
  | succ left ih =>
    intro rc e hres
    cases ho : o rc with
    | netFail =>
      rw [fetchGo_netFail o url rc (left + 1) ho] at hres
      simp at hres
      rw [← hres]
      exact networkErrMsg_ne url
    | response s txt =>
      by_cases hs : s = 429
      · subst hs
        rw [fetchGo_429_step o url rc left txt ho] at hres
        exact ih (rc + 1) e hres
      · by_cases hok : GitHubApi.statusOk s = true
        · rw [fetchGo_ok o url rc (left + 1) s txt ho hs hok] at hres
          simp at hres
        · rw [fetchGo_httpError o url rc (left + 1) s txt ho hs (by simpa using hok)] at hres
          simp at hres
          rw [← hres]
          exact fetchFailMsg_ne url txt

theorem fetchDirectoryContents_error_message (fo : String → Nat → GitHubApi.FetchOutcome)
    (jo : String → List GitHubApi.GitHubContentItem) (path : String)
    (e : GitHubApi.GitHubApiError)
    (h : GitHubApi.fetchDirectoryContents fo jo path = .error e) : e.message ≠ "" := by
  simp only [GitHubApi.fetchDirectoryContents] at h
  cases hres : (GitHubApi.fetchWithRateLimit (fo (GitHubApi.buildApiUrl path))
      (GitHubApi.buildApiUrl path) 0).result with
  | ok i =>
    simp only [hres] at h
    exact absurd h (by simp)
  | error e' =>
    simp only [hres, Except.error.injEq] at h
    rw [← h]
    exact fetchGo_error_message (fo (GitHubApi.buildApiUrl path))
      (GitHubApi.buildApiUrl path) _ 0 e' hres

theorem getCategories_error_message (fo : String → Nat → GitHubApi.FetchOutcome)
    (jo : String → List GitHubApi.GitHubContentItem) (e : GitHubApi.GitHubApiError)
    (h : GitHubApi.getCategories fo jo = .error e) : e.message ≠ "" := by
  unfold GitHubApi.getCategories at h
  cases hdc : GitHubApi.fetchDirectoryContents fo jo "" with
  | ok contents =>
    simp only [hdc] at h
    exact absurd h (by simp)
  | error e1 =>
    simp only [hdc, Except.error.injEq] at h
    rw [← h]
    exact fetchDirectoryContents_error_message fo jo "" e1 hdc

theorem githubAdapter_error_message (fo : String → Nat → GitHubApi.FetchOutcome)
    (jo : String → List GitHubApi.GitHubContentItem) (slug : String)
    (e : GitHubApi.GitHubApiError)
    (h : GitHubApi.getWallpapersByCategory fo jo slug = .error e) : e.message ≠ "" := by
  unfold GitHubApi.getWallpapersByCategory at h
  cases hcats : GitHubApi.getCategories fo jo with
  | error e1 =>
    simp only [hcats, Except.error.injEq] at h
    rw [← h]
    exact getCategories_error_message fo jo e1 hcats
  | ok cats =>
    simp only [hcats] at h
    cases hfind : cats.find? (fun c => c.slug == slug) with
    | none =>
      simp only [hfind, Except.error.injEq] at h
      rw [← h]
      exact notFoundMsg_ne slug
    | some category =>
      simp only [hfind] at h
      cases hdc : GitHubApi.fetchDirectoryContents fo jo ("/" ++ category.path) with
      | error e2 =>
        simp only [hdc, Except.error.injEq] at h
        rw [← h]
        exact fetchDirectoryContents_error_message fo jo ("/" ++ category.path) e2 hdc
      | ok contents =>
        simp only [hdc] at h
        exact absurd h (by simp)

theorem service_none (db : DbState)
    (adapter : String → Except GitHubApi.GitHubApiError (List WallpaperItem))
    (slug now : String) (hnone : Db.getCategoryBySlug db slug = none) :
    Service.getWallpapersByCategory db adapter slug now
      = .ok (Service.fetchAndCache db adapter slug now none) := by
  unfold Service.getWallpapersByCategory
  rw [hnone]

theorem service_miss (db : DbState)
    (adapter : String → Except GitHubApi.GitHubApiError (List WallpaperItem))
    (slug now : String) (cat : DatabaseCategory)
    (hcat : Db.getCategoryBySlug db slug = some cat)
    (hrows : Db.rowsByCategory db cat.id = []) :
    Service.getWallpapersByCategory db adapter slug now
      = .ok (Service.fetchAndCache db adapter slug now (some cat)) := by
  unfold Service.getWallpapersByCategory
  rw [hcat]
  simp only [getWallpapers_byCategory db cat.id, hrows]
  simp

theorem service_hit (db : DbState)
    (adapter : String → Except GitHubApi.GitHubApiError (List WallpaperItem))
    (slug now : String) (cat : DatabaseCategory)
    (hcat : Db.getCategoryBySlug db slug = some cat)
    (hrows : Db.rowsByCategory db cat.id ≠ []) :
    Service.getWallpapersByCategory db adapter slug now
      = .ok ⟨(Db.rowsByCategory db cat.id).map Service.convertDatabaseWallpaper,
             db, [], []⟩ := by
  unfold Service.getWallpapersByCategory
  rw [hcat]
  simp only [getWallpapers_byCategory db cat.id]
  have hlen : (Db.rowsByCategory db cat.id).length > 0 := List.length_pos.mpr hrows
  simp [hlen]

theorem fetchAndCache_error (db : DbState)
    (adapter : String → Except GitHubApi.GitHubApiError (List WallpaperItem))
    (slug now : String) (dbcat : Option DatabaseCategory)
    (e : GitHubApi.GitHubApiError) (hAd : adapter slug = .error e) :
    Service.fetchAndCache db adapter slug now dbcat
      = ⟨[], (Db.updateSyncMeta db slug .failed (some 0) (some e.message) now).2,
         [slug], [⟨slug, .failed, 0, some e.message⟩]⟩ := by
  unfold Service.fetchAndCache
  rw [hAd]

theorem fetchAndCache_ok_none (db : DbState)
    (adapter : String → Except GitHubApi.GitHubApiError (List WallpaperItem))
    (slug now : String) (items : List WallpaperItem) (hAd : adapter slug = .ok items) :
    Service.fetchAndCache db adapter slug now none = ⟨items, db, [slug], []⟩ := by
  unfold Service.fetchAndCache
  rw [hAd]

theorem fetchAndCache_ok_some (db : DbState)
    (adapter : String → Except GitHubApi.GitHubApiError (List WallpaperItem))
    (slug now : String) (cat : DatabaseCategory) (items : List WallpaperItem)
    (hAd : adapter slug = .ok items) :
    Service.fetchAndCache db adapter slug now (some cat)
      = ⟨(Service.cacheLoop cat.id (Service.featuredCategorySlugs.contains slug) now db items).1,
         (Db.updateSyncMeta
           (Service.cacheLoop cat.id (Service.featuredCategorySlugs.contains slug) now db items).2
           slug .completed
           (some (Service.cacheLoop cat.id (Service.featuredCategorySlugs.contains slug) now db items).1.length)
           none now).2,
         [slug],
         [⟨slug, .completed,
           (Service.cacheLoop cat.id (Service.featuredCategorySlugs.contains slug) now db items).1.length,
           none⟩]⟩ := by
  unfold Service.fetchAndCache
  rw [hAd]

theorem updateSyncMeta_wallpapers (db : DbState) (name : String) (st : SyncStatus)
    (count : Option Nat) (err : Option String) (now : String) :
    (Db.updateSyncMeta db name st count err now).2.wallpapers = db.wallpapers := rfl

theorem updateSyncMeta_categories (db : DbState) (name : String) (st : SyncStatus)
    (count : Option Nat) (err : Option String) (now : String) :
    (Db.updateSyncMeta db name st count err now).2.categories = db.categories := rfl

theorem createWallpaper_inserts (db : DbState) (w : NewWallpaper) (now : String)
    (h : Db.getWallpaperByGithubId db w.github_id = none) :
    (Db.createWallpaper db w now).2
      = { db with
            wallpapers := db.wallpapers ++ [Db.mkStoredWallpaper db.nextWallpaperId w now],
            nextWallpaperId := db.nextWallpaperId + 1 } := by
  unfold Db.createWallpaper
  rw [h]
  cases hl : Db.getWallpaperById
      { db with
          wallpapers := db.wallpapers ++ [Db.mkStoredWallpaper db.nextWallpaperId w now],
          nextWallpaperId := db.nextWallpaperId + 1 } db.nextWallpaperId <;> simp [hl]

theorem createWallpaper_nochange (db : DbState) (w : NewWallpaper) (now : String)
    (x : DatabaseWallpaper) (h : Db.getWallpaperByGithubId db w.github_id = some x) :
    (Db.createWallpaper db w now).2 = db := by
  unfold Db.createWallpaper
  rw [h]

theorem createWallpaper_categories (db : DbState) (w : NewWallpaper) (now : String) :
    (Db.createWallpaper db w now).2.categories = db.categories := by
  cases h : Db.getWallpaperByGithubId db w.github_id with
  | some x => rw [createWallpaper_nochange db w now x h]
  | none => rw [createWallpaper_inserts db w now h]

theorem createWallpaper_mem (db : DbState) (w : NewWallpaper) (now : String)
    (r : DatabaseWallpaper) (h : r ∈ db.wallpapers) :
    r ∈ (Db.createWallpaper db w now).2.wallpapers := by
  cases hg : Db.getWallpaperByGithubId db w.github_id with
  | some x => rw [createWallpaper_nochange db w now x hg]; exact h
  | none => rw [createWallpaper_inserts db w now hg]; exact List.mem_append_left _ h

theorem cacheLoop_cons_db (cid : Nat) (f : Bool) (now : String) (g : WallpaperItem)
    (rest : List WallpaperItem) (db : DbState) :
    (Service.cacheLoop cid f now db (g :: rest)).2
      = (Service.cacheLoop cid f now
          (Db.createWallpaper db (Service.convertGitHubWallpaper g cid f) now).2 rest).2 := by
  rcases hc : Db.createWallpaper db (Service.convertGitHubWallpaper g cid f) now with ⟨res, db'⟩
  cases res with
  | ok created => simp [Service.cacheLoop, hc]
  | error msg => simp [Service.cacheLoop, hc]

theorem cacheLoop_categories (cid : Nat) (f : Bool) (now : String) :
    ∀ (items : List WallpaperItem) (db : DbState),
      (Service.cacheLoop cid f now db items).2.categories = db.categories := by
  intro items
  induction items with
  | nil => intro db; rfl
  | cons g rest ih =>
    intro db
    rw [cacheLoop_cons_db]
    rw [ih]
    exact createWallpaper_categories db _ now

theorem cacheLoop_mem (cid : Nat) (f : Bool) (now : String) :
    ∀ (items : List WallpaperItem) (db : DbState) (r : DatabaseWallpaper),
      r ∈ db.wallpapers → r ∈ (Service.cacheLoop cid f now db items).2.wallpapers := by
  intro items
  induction items with
  | nil => intro db r h; exact h
  | cons g rest ih =>
    intro db r h
    rw [cacheLoop_cons_db]
    exact ih _ r (createWallpaper_mem db _ now r h)

theorem cacheLoop_creates (cid : Nat) (f : Bool) (now : String) :
    ∀ (items : List WallpaperItem) (db : DbState),
      (∃ g ∈ items, ∀ r ∈ db.wallpapers, r.github_id ≠ g.sha) →
      ∃ row ∈ (Service.cacheLoop cid f now db items).2.wallpapers,
        row.category_id = cid := by
  intro items
  induction items with
  | nil =>
    intro db h
    rcases h with ⟨g, hg, _⟩
    simp at hg
  | cons g rest ih =>
    intro db h
    by_cases hfr : ∀ r ∈ db.wallpapers, r.github_id ≠ g.sha
    · have hnone : Db.getWallpaperByGithubId db
          (Service.convertGitHubWallpaper g cid f).github_id = none := by
        refine List.find?_eq_none.mpr ?_
        intro r hr
        simp [Service.convertGitHubWallpaper, hfr r hr]
      rw [cacheLoop_cons_db, createWallpaper_inserts db _ now hnone]
      refine ⟨Db.mkStoredWallpaper db.nextWallpaperId
        (Service.convertGitHubWallpaper g cid f) now, ?_, rfl⟩
      exact cacheLoop_mem cid f now rest _ _
        (List.mem_append_right _ (by simp))
    · push_neg at hfr
      rcases hfr with ⟨r0, hr0, hr0g⟩
      rcases h with ⟨g', hg', hfresh⟩
      have hg'rest : g' ∈ rest := by
        rcases List.mem_cons.mp hg' with hEq | hmem
        · exfalso
          subst hEq
          exact hfresh r0 hr0 hr0g
        · exact hmem
      cases hg : Db.getWallpaperByGithubId db
          (Service.convertGitHubWallpaper g cid f).github_id with
      | none =>
        exfalso
        have := List.find?_eq_none.mp hg r0 hr0
        simp [Service.convertGitHubWallpaper, hr0g] at this
      | some x =>
        rw [cacheLoop_cons_db, createWallpaper_nochange db _ now x hg]
        exact ih db ⟨g', hg'rest, hfresh⟩

theorem length_insertSorted (le : DatabaseWallpaper → DatabaseWallpaper → Bool)
    (x : DatabaseWallpaper) : ∀ l, (insertSorted le x l).length = l.length + 1 := by
  intro l
  induction l with
  | nil => rfl
  | cons y ys ih =>
    unfold insertSorted
    by_cases h : le x y = true
    · rw [if_pos h]; rfl
    · rw [if_neg h]
      simp [ih]

theorem length_sortWith (le : DatabaseWallpaper → DatabaseWallpaper → Bool) :
    ∀ l, (sortWith le l).length = l.length := by
  intro l
  induction l with
  | nil => rfl
  | cons x xs ih =>
    unfold sortWith
    rw [length_insertSorted, ih]
    rfl

theorem rowsByCategory_ne_of_mem (db : DbState) (cid : Nat) (row : DatabaseWallpaper)
    (hmem : row ∈ db.wallpapers) (hcid : row.category_id = cid) :
    Db.rowsByCategory db cid ≠ [] := by
  have hmf : Db.matchesFilters { categoryId := some cid } row = true := by
    unfold Db.matchesFilters
    by_cases h0 : cid = 0
    · simp [jsTruthyNat, jsStringOrNull, h0]
    · simp [jsTruthyNat, jsStringOrNull, h0, hcid]
  have hfmem : row ∈ db.wallpapers.filter (Db.matchesFilters { categoryId := some cid }) :=
    List.mem_filter.mpr ⟨hmem, hmf⟩
  intro hnil
  have hlen : (Db.rowsByCategory db cid).length = 0 := by rw [hnil]; rfl
  unfold Db.rowsByCategory at hlen
  rw [length_sortWith] at hlen
  rw [List.length_eq_zero] at hlen
  rw [hlen] at hfmem
  exact List.not_mem_nil row hfmem

theorem getCategoryBySlug_congr (db1 db2 : DbState)
    (h : db1.categories = db2.categories) (slug : String) :
    Db.getCategoryBySlug db1 slug = Db.getCategoryBySlug db2 slug := by
  unfold Db.getCategoryBySlug
  rw [h]

/-- Claim C1 as amended: for a category slug with no cached wallpapers, if
the Adapter call raises, `getWallpapersByCategory` returns `[]`, ends the
SyncMeta row for that slug in `failed` with a non-empty error message, and
never raises to its caller (the call's value is `.ok`). -/
theorem degradedPathNoCache (db : DbState) (slug now : String)
    (fo : String → Nat → GitHubApi.FetchOutcome)
    (jo : String → List GitHubApi.GitHubContentItem) (e : GitHubApi.GitHubApiError)
    (hNoCache : ∀ cat, Db.getCategoryBySlug db slug = some cat →
       Db.rowsByCategory db cat.id = [])
    (hFail : GitHubApi.getWallpapersByCategory fo jo slug = .error e) :
    Service.getWallpapersByCategory db (GitHubApi.getWallpapersByCategory fo jo) slug now
      = .ok ⟨[], (Db.updateSyncMeta db slug .failed (some 0) (some e.message) now).2,
             [slug], [⟨slug, .failed, 0, some e.message⟩]⟩
    ∧ Db.getSyncMeta (Db.updateSyncMeta db slug .failed (some 0) (some e.message) now).2 slug
        = some ⟨slug, .failed, now, 0, some e.message⟩
    ∧ e.message ≠ "" := by
  have hmsg : e.message ≠ "" := githubAdapter_error_message fo jo slug e hFail
  refine ⟨?_, ?_, hmsg⟩
  · cases hcat : Db.getCategoryBySlug db slug with
    | none =>
      rw [service_none db _ slug now hcat,
          fetchAndCache_error db _ slug now none e hFail]
    | some cat =>
      rw [service_miss db _ slug now cat hcat (hNoCache cat hcat),
          fetchAndCache_error db _ slug now (some cat) e hFail]
  · unfold Db.getSyncMeta Db.updateSyncMeta
    rw [find?_filter_append db.sync_meta
      ⟨slug, .failed, now, (some 0).getD 0, jsStringOrNull (some e.message)⟩ slug rfl]
    simp [jsStringOrNull, hmsg]

/-- Claim C2 as amended: a category with at least one cached wallpaper is
served from the cache with no Adapter invocation; a category with zero
cached wallpapers invokes the Adapter once, and when the fetch returns at
least one item whose github_id is not already cached, the cache ends
non-empty for that category, so the next call is a pure cache hit with no
Adapter call. -/
theorem cacheAside :
    (∀ (db : DbState)
       (adapter : String → Except GitHubApi.GitHubApiError (List WallpaperItem))
       (slug now : String) (cat : DatabaseCategory),
       Db.getCategoryBySlug db slug = some cat →
       Db.rowsByCategory db cat.id ≠ [] →
       Service.getWallpapersByCategory db adapter slug now
         = .ok ⟨(Db.rowsByCategory db cat.id).map Service.convertDatabaseWallpaper,
                db, [], []⟩)
    ∧ (∀ (db : DbState)
         (adapter : String → Except GitHubApi.GitHubApiError (List WallpaperItem))
         (slug now now2 : String) (cat : DatabaseCategory)
         (items : List WallpaperItem) (g : WallpaperItem),
         Db.getCategoryBySlug db slug = some cat →
         Db.rowsByCategory db cat.id = [] →
         adapter slug = .ok items →
         g ∈ items →
         (∀ r ∈ db.wallpapers, r.github_id ≠ g.sha) →
         ∃ run, Service.getWallpapersByCategory db adapter slug now = .ok run
           ∧ run.adapterCalls = [slug]
           ∧ Db.rowsByCategory run.db cat.id ≠ []
           ∧ ∃ run2, Service.getWallpapersByCategory run.db adapter slug now2 = .ok run2
               ∧ run2.adapterCalls = []
               ∧ run2.items = (Db.rowsByCategory run.db cat.id).map
                   Service.convertDatabaseWallpaper) := by
  constructor
  · exact fun db adapter slug now cat hcat hne => service_hit db adapter slug now cat hcat hne
  · intro db adapter slug now now2 cat items g hcat hrows hAd hg hFresh
    rw [service_miss db adapter slug now cat hcat hrows,
        fetchAndCache_ok_some db adapter slug now cat items hAd]
    obtain ⟨row, hrmem, hrcid⟩ :=
      cacheLoop_creates cat.id (Service.featuredCategorySlugs.contains slug) now items db
        ⟨g, hg, hFresh⟩
    have hne2 : Db.rowsByCategory
        (Db.updateSyncMeta
          (Service.cacheLoop cat.id (Service.featuredCategorySlugs.contains slug) now db items).2
          slug .completed
          (some (Service.cacheLoop cat.id (Service.featuredCategorySlugs.contains slug) now db items).1.length)
          none now).2 cat.id ≠ [] := by
      refine rowsByCategory_ne_of_mem _ cat.id row ?_ hrcid
      rw [updateSyncMeta_wallpapers]
      exact hrmem
    have hcat2 : Db.getCategoryBySlug
        (Db.updateSyncMeta
          (Service.cacheLoop cat.id (Service.featuredCategorySlugs.contains slug) now db items).2
          slug .completed
          (some (Service.cacheLoop cat.id (Service.featuredCategorySlugs.contains slug) now db items).1.length)
          none now).2 slug = some cat := by
      rw [getCategoryBySlug_congr _ db
        (by rw [updateSyncMeta_categories]
            exact cacheLoop_categories cat.id (Service.featuredCategorySlugs.contains slug) now items db)
        slug]
      exact hcat
    exact ⟨_, rfl, rfl, hne2,
      ⟨_, service_hit _ adapter slug now2 cat hcat2 hne2, rfl, rfl⟩⟩

/-- Claim C3 as amended: the orchestrator records only `completed` (after
a successful sync) or `failed` (after a failed one); it never writes
`pending` or `syncing`, and a cache-miss sync attempt for a known category
makes exactly one SyncMeta write matching the adapter outcome. -/
theorem syncStatusTransitions :
    (∀ (db : DbState)
       (adapter : String → Except GitHubApi.GitHubApiError (List WallpaperItem))
       (slug now : String) (run : Service.ServiceRun),
       Service.getWallpapersByCategory db adapter slug now = .ok run →
       ∀ w ∈ run.syncWrites,
         w.status = SyncStatus.completed ∨ w.status = SyncStatus.failed)
    ∧ (∀ (db : DbState)
         (adapter : String → Except GitHubApi.GitHubApiError (List WallpaperItem))
         (slug now : String) (cat : DatabaseCategory) (run : Service.ServiceRun),
         Db.getCategoryBySlug db slug = some cat →
         Db.rowsByCategory db cat.id = [] →
         Service.getWallpapersByCategory db adapter slug now = .ok run →
         ((∀ e, adapter slug = .error e →
             run.syncWrites.map (fun w => w.status) = [SyncStatus.failed])
          ∧ (∀ items, adapter slug = .ok items →
             run.syncWrites.map (fun w => w.status) = [SyncStatus.completed]))) := by
  constructor
  · intro db adapter slug now run hrun w hw
    cases hcat : Db.getCategoryBySlug db slug with
    | none =>
      rw [service_none db adapter slug now hcat] at hrun
      cases hAd : adapter slug with
      | error e =>
        rw [fetchAndCache_error db adapter slug now none e hAd] at hrun
        injection hrun with h
        subst h
        simp at hw
        subst hw
        exact Or.inr rfl
      | ok items =>
        rw [fetchAndCache_ok_none db adapter slug now items hAd] at hrun
        injection hrun with h
        subst h
        simp at hw
    | some cat =>
      by_cases hrows : Db.rowsByCategory db cat.id = []
      · rw [service_miss db adapter slug now cat hcat hrows] at hrun
        cases hAd : adapter slug with
        | error e =>
          rw [fetchAndCache_error db adapter slug now (some cat) e hAd] at hrun
          injection hrun with h
          subst h
          simp at hw
          subst hw
          exact Or.inr rfl
        | ok items =>
          rw [fetchAndCache_ok_some db adapter slug now cat items hAd] at hrun
          injection hrun with h
          subst h
          simp at hw
          subst hw
          exact Or.inl rfl
      · rw [service_hit db adapter slug now cat hcat hrows] at hrun
        injection hrun with h
        subst h
        simp at hw
  · intro db adapter slug now cat run hcat hrows hrun
    rw [service_miss db adapter slug now cat hcat hrows] at hrun
    constructor
    · intro e hAd
      rw [fetchAndCache_error db adapter slug now (some cat) e hAd] at hrun
      injection hrun with h
      subst h
      rfl
    · intro items hAd
      rw [fetchAndCache_ok_some db adapter slug now cat items hAd] at hrun
      injection hrun with h
      subst h
      rfl

/-- Counterexample to C1 as stated: with one cached wallpaper for the
category, an adapter that raises on every call is never consulted — the
call returns the cached row (not the empty array) and writes no `failed`
SyncMeta row, so the claim's unconditional "for every category slug" is
false. -/
theorem degradedPathCounterexample :
    (Service.getWallpapersByCategory exDbCached alwaysFailAdapter "anime" "t1").map
      (fun run => (run.items.length, Db.getSyncMeta run.db "anime", run.adapterCalls))
    = .ok (1, none, []) := rfl

/-- Witness for C1 (amended): an empty database and a network-failing
fetch oracle. -/
theorem degradedPathNoCache_witness :
    Service.getWallpapersByCategory exDbEmpty
        (GitHubApi.getWallpapersByCategory failFetch emptyJson) "anime" "t0"
      = .ok ⟨[], (Db.updateSyncMeta exDbEmpty "anime" .failed (some 0)
                    (some exNetErr.message) "t0").2,
             ["anime"], [⟨"anime", .failed, 0, some exNetErr.message⟩]⟩
    ∧ Db.getSyncMeta (Db.updateSyncMeta exDbEmpty "anime" .failed (some 0)
        (some exNetErr.message) "t0").2 "anime"
        = some ⟨"anime", .failed, "t0", 0, some exNetErr.message⟩
    ∧ exNetErr.message ≠ "" :=
  degradedPathNoCache exDbEmpty "anime" "t0" failFetch emptyJson exNetErr
    (by intro cat h; simp [Db.getCategoryBySlug, exDbEmpty] at h) rfl

/-- Counterexample to C2 as stated: with a known category, zero cached
rows, and an adapter that succeeds with an empty listing, the successful
call leaves the cache empty and the next call invokes the Adapter again —
"leaves the Persistent Cache non-empty ... no second Adapter call needed"
fails. -/
theorem cacheAsideCounterexample :
    (Service.getWallpapersByCategory exDbNoWallpapers emptyOkAdapter "anime" "t1").map
      (fun run => (run.adapterCalls, run.db.wallpapers,
        (Service.getWallpapersByCategory run.db emptyOkAdapter "anime" "t2").map
          (fun r2 => r2.adapterCalls)))
    = .ok (["anime"], [], .ok ["anime"]) := rfl

/-- Witness for C2 (amended): one fresh fetched item populates the cache
and the second call is a hit. -/
theorem cacheAside_witness :
    ∃ run, Service.getWallpapersByCategory exDbNoWallpapers oneItemAdapter "anime" "t1"
        = .ok run
      ∧ run.adapterCalls = ["anime"]
      ∧ Db.rowsByCategory run.db exAnimeCategory.id ≠ []
      ∧ ∃ run2, Service.getWallpapersByCategory run.db oneItemAdapter "anime" "t2"
            = .ok run2
          ∧ run2.adapterCalls = []
          ∧ run2.items = (Db.rowsByCategory run.db exAnimeCategory.id).map
              Service.convertDatabaseWallpaper :=
  cacheAside.2 exDbNoWallpapers oneItemAdapter "anime" "t1" "t2" exAnimeCategory
    [exItem] exItem rfl rfl rfl (by simp)
    (by intro r hr; simp [exDbNoWallpapers] at hr)

/-- Counterexample to C3 as stated: a sync attempt that contacts the
Adapter (adapterCalls nonempty) writes only `completed` — the row is never
marked `syncing` before the Adapter is contacted, and the status jumps from
absent straight to `completed` rather than via pending → syncing. -/
theorem syncStatusCounterexample :
    (Service.getWallpapersByCategory exDbNoWallpapers oneItemAdapter "anime" "t1").map
      (fun run => (run.adapterCalls, run.syncWrites.map (fun w => w.status)))
    = .ok (["anime"], [SyncStatus.completed]) := rfl

/-- Witness for C3 (amended): a concrete successful sync writes statuses
within {completed, failed}. -/
theorem syncStatusTransitions_witness :
    ∃ run, Service.getWallpapersByCategory exDbNoWallpapers oneItemAdapter "anime" "t1"
        = .ok run
      ∧ (∀ w ∈ run.syncWrites,
          w.status = SyncStatus.completed ∨ w.status = SyncStatus.failed) :=
  ⟨_, rfl, syncStatusTransitions.1 exDbNoWallpapers oneItemAdapter "anime" "t1" _ rfl⟩

end WallCrawler
